import Mathlib

/-!
Verification development for the tiktok-analytics repository.

Shallow embedding of the import/reconciliation pipeline
(`posts/management/commands/import_tiktok_json.py`), the history differ
(`posts/management/commands/import_followers_history.py`), and the
analytics operations (`posts/analytics.py`, `posts/views.py`), together
with theorems settling the specification claims.

Conventions of the embedding:
* `datetime` values are modelled as abstract integer timestamps (`Int`);
  the external parser `django.utils.dateparse.parse_datetime` is passed in
  as an explicit collaborator `pd : String → Option Int` (returning `none`
  exactly when the source parser returns a falsy value).
* Each Django model row becomes a structure; the persistent store is a
  `Store` holding the four tables as lists (insertion order = id order).
* Python exceptions caught by the per-record `try/except` blocks become an
  `errored` outcome; exceptions used for control flow (the dry-run
  rollback trigger) become explicit branches.
* A raw JSON post object is modelled by which of the two documented key
  sets it carries (`'Date' in post_data` distinguishes them in the source);
  a missing key that the source reads with `dict['k']` (raising `KeyError`)
  is an `Option` field holding `none`.
-/

namespace TikTok

/-- A persisted `Post` row (`posts/models.py`, class `Post`).  Note the
model has no owning-user field. -/
structure PostRow where
  postId : String
  title : String
  likes : Int
  date : Int
  coverUrl : String
  videoLink : String
deriving DecidableEq, Repr

/-- A persisted `Follower` or `Following` row (`posts/models.py`): the
owning user, the external username and the source-reported follow date. -/
structure FollowRow where
  user : String
  username : String
  dateFollowed : Int
deriving DecidableEq, Repr

/-- A persisted `FollowerSnapshot` row (`posts/models.py`). -/
structure SnapshotRow where
  user : String
  snapshotDate : Int
  followerCount : Nat
  followingCount : Nat
deriving DecidableEq, Repr

/-- The persistent store: the four tables touched by the import pipeline. -/
structure Store where
  posts : List PostRow
  followers : List FollowRow
  following : List FollowRow
  snapshots : List SnapshotRow
deriving DecidableEq, Repr

/-- A raw post object in TikTok export format (the branch of
`_convert_post_format` taken when `'Date' in post_data`).  Fields record
the values read by `.get` with their defaults already applied; `likes` is
the result of `int(post_data.get('Likes', 0))`, `none` when the `int()`
conversion raises. -/
structure ExportPost where
  link : String
  title : String
  likes : Option Int
  dateStr : String
  coverImage : Option String
deriving DecidableEq, Repr

/-- A raw post object already in internal format (the passthrough branch
of `_convert_post_format`).  Every field is optional because `_save_post`
and `Post.objects.create` index the dict directly (`post_data['id']`,
`post_data['date']`, ...), raising `KeyError` when absent. -/
structure InternalPost where
  id : Option String
  title : Option String
  likes : Option Int
  dateStr : Option String
  coverUrl : Option String
  videoLink : Option String
deriving DecidableEq, Repr

/-- A raw JSON post object: the source distinguishes the two shapes by
`'Date' in post_data`. -/
inductive RawPost
  | exportFmt : ExportPost → RawPost
  | internalFmt : InternalPost → RawPost
deriving DecidableEq, Repr

/-- A raw follower/following entry: the values of
`.get('UserName', '')` and `.get('Date', '')`. -/
structure RawFan where
  userName : String
  date : String
deriving DecidableEq, Repr

/-- The projection of a dict-shaped export payload onto the keys that the
command reads.  A missing level in a `.get` chain collapses to the
source's default `[]`.  `topFansList`/`topFollowingList` are the top-level
`data['Follower']['FansList']` / `data['Following']['Following']` lists
read by `_create_snapshot`, distinct from the nested
`data['Profile And Settings']` lists read by the import loops. -/
structure ExportDict where
  videoList : List RawPost
  fansList : List RawFan
  followingList : List RawFan
  topFansList : List RawFan
  topFollowingList : List RawFan
deriving DecidableEq, Repr

/-- A parsed export payload: a dict or a legacy flat list of posts. -/
inductive ExportData
  | dict : ExportDict → ExportData
  | flat : List RawPost → ExportData
deriving DecidableEq, Repr

/-- Per-record outcome of `_save_post` / the follower loop body. -/
inductive SaveOutcome
  | created
  | skipped
  | errored
deriving DecidableEq, Repr

/-- Per-kind counters of the import command (`created`/`skipped`/`errors`
as accumulated in `_import_posts` and friends), together with `printed`,
the number of per-record error messages written verbosely (the source
prints a message only while `errors <= 5`). -/
structure KindStats where
  created : Nat
  skipped : Nat
  errors : Nat
  printed : Nat
deriving DecidableEq, Repr

/-- The zero counters. -/
def KindStats.zero : KindStats := ⟨0, 0, 0, 0⟩

/-- Summary statistics of one `import_tiktok_json` run. -/
structure HandleStats where
  posts : KindStats
  followers : KindStats
  following : KindStats
deriving DecidableEq, Repr

/-- `link.split('/')[-1]`: the trailing path segment of a URL. -/
def lastSegment (link : String) : String :=
  (link.splitOn "/").getLastD ""

/-- Python `str.strip()` — drop whitespace from both ends — modelled by
structural recursion on the underlying character list. -/
def pyStrip (s : String) : String :=
  ⟨((s.data.dropWhile Char.isWhitespace).reverse.dropWhile
      Char.isWhitespace).reverse⟩

/-- `_convert_post_format` on a TikTok-export-format object (the branch
with `'Date' in post_data`): derive `id` from the trailing segment of
`Link` truncated to 19 characters, map the remaining fields; `none` when
the `int(...)` conversion of `Likes` raises. -/
def convertPostFormat (e : ExportPost) : Option InternalPost :=
  match e.likes with
  | none => none
  | some lk =>
      some { id := some ((lastSegment e.link).take 19)
             title := some e.title
             likes := some lk
             dateStr := some e.dateStr
             coverUrl := some (e.coverImage.getD e.link)
             videoLink := some e.link }

/-- Does the posts table contain a row with this `post_id`
(`Post.objects.filter(post_id=post_id).exists()`)? -/
def Store.postExists (st : Store) (pid : String) : Bool :=
  st.posts.any (fun p => p.postId = pid)

/-- `_save_post` on an internal-format dict: extract `post_id` (a
`KeyError` on a missing `id` propagates to the caller's `except`), return
`created` at once under dry-run, otherwise skip existing ids, parse the
date, and create the row (each remaining missing key is a `KeyError`). -/
def savePost (pd : String → Option Int) (dry : Bool) (st : Store)
    (p : InternalPost) : Store × SaveOutcome :=
  match p.id with
  | none => (st, .errored)
  | some pid =>
      if dry then (st, .created)
      else if st.postExists pid then (st, .skipped)
      else
        match p.dateStr with
        | none => (st, .errored)
        | some ds =>
            match pd ds with
            | none => (st, .errored)
            | some d =>
                match p.title, p.likes, p.coverUrl, p.videoLink with
                | some t, some lk, some cu, some vl =>
                    ({ st with
                       posts := st.posts ++ [⟨pid, t, lk, d, cu, vl⟩] },
                     .created)
                | _, _, _, _ => (st, .errored)

/-- One iteration of the `_import_posts` loop: `_convert_post_format`
followed by `_save_post`, any exception caught as an `errored` outcome. -/
def processPost (pd : String → Option Int) (dry : Bool) (st : Store)
    (r : RawPost) : Store × SaveOutcome :=
  match r with
  | .exportFmt e =>
      match convertPostFormat e with
      | none => (st, .errored)
      | some c => savePost pd dry st c
  | .internalFmt p => savePost pd dry st p

/-- Add one outcome to the per-kind counters, printing the error verbosely
only while `errors <= 5`. -/
def KindStats.addOutcome (s : KindStats) : SaveOutcome → KindStats
  | .created => { s with created := s.created + 1 }
  | .skipped => { s with skipped := s.skipped + 1 }
  | .errored =>
      { s with
        errors := s.errors + 1
        printed := if s.errors + 1 ≤ 5 then s.printed + 1 else s.printed }

/-- The posts to import: `Post.Posts.VideoList` for a dict payload
(missing levels collapse to `[]`), the payload itself for a legacy list. -/
def postsOf : ExportData → List RawPost
  | .dict d => d.videoList
  | .flat ps => ps

/-- One step of the `_import_posts` accumulation: process the record
against the current store and add its outcome to the counters. -/
def importPostsStep (pd : String → Option Int) (dry : Bool)
    (acc : Store × KindStats) (r : RawPost) : Store × KindStats :=
  let (st', out) := processPost pd dry acc.1 r
  (st', acc.2.addOutcome out)

/-- `_import_posts`: fold the per-record step over the extracted list,
accumulating counters; a record's failure only bumps the error counter. -/
def importPosts (pd : String → Option Int) (dry : Bool) (st : Store)
    (records : List RawPost) : Store × KindStats :=
  records.foldl (importPostsStep pd dry) (st, KindStats.zero)

/-- Does this relation table contain a row for `(user, username)`
(`Follower.objects.filter(user=user, username=username).exists()`)? -/
def followKeyExists (rows : List FollowRow) (user username : String) : Bool :=
  rows.any (fun r => r.user = user ∧ r.username = username)

/-- One iteration of the `_import_followers` / `_import_following` loop
body: validate `UserName` (non-empty after strip) and `Date` (parseable);
under dry-run every valid entry counts as created; otherwise check
existence against the table as it stood when the loop started and stage a
row for the bulk insert.  Any exception is caught as `errored`. -/
def followStep (pd : String → Option Int) (user : String) (dry : Bool)
    (rows : List FollowRow) (acc : List FollowRow × KindStats)
    (fan : RawFan) : List FollowRow × KindStats :=
  let u := pyStrip fan.userName
  if u = "" then (acc.1, acc.2.addOutcome .errored)
  else
    match pd fan.date with
    | none => (acc.1, acc.2.addOutcome .errored)
    | some d =>
        if dry then (acc.1, acc.2.addOutcome .created)
        else if followKeyExists rows user u then
          (acc.1, acc.2.addOutcome .skipped)
        else
          (acc.1 ++ [⟨user, u, d⟩], acc.2.addOutcome .created)

/-- `bulk_create(..., ignore_conflicts=True)`: insert the staged rows one
by one, silently dropping any row whose `(user, username)` key already
occurs in the table (including rows inserted earlier in the same bulk). -/
def bulkInsertFollow (rows toCreate : List FollowRow) : List FollowRow :=
  toCreate.foldl
    (fun acc row =>
      if followKeyExists acc row.user row.username then acc
      else acc ++ [row])
    rows

/-- The shared body of `_import_followers` and `_import_following`: run
the validation/staging loop over the entries, then bulk-insert the staged
rows unless dry-run.  Returns the updated table and the counters. -/
def importFollowList (pd : String → Option Int) (user : String)
    (dry : Bool) (rows : List FollowRow) (fans : List RawFan) :
    List FollowRow × KindStats :=
  let (toCreate, stats) :=
    fans.foldl (followStep pd user dry rows) ([], KindStats.zero)
  (if dry then rows else bulkInsertFollow rows toCreate, stats)

/-- The follower entries the import reads:
`data['Profile And Settings']['Follower']['FansList']` for a dict
payload, absent for a legacy list payload. -/
def fansOf : ExportData → List RawFan
  | .dict d => d.fansList
  | .flat _ => []

/-- The following entries the import reads:
`data['Profile And Settings']['Following']['Following']`. -/
def followingOf : ExportData → List RawFan
  | .dict d => d.followingList
  | .flat _ => []

/-- `_import_followers`: run the shared loop over the payload's follower
entries against the followers table. -/
def importFollowers (pd : String → Option Int) (user : String)
    (dry : Bool) (st : Store) (data : ExportData) : Store × KindStats :=
  let res := importFollowList pd user dry st.followers (fansOf data)
  ({ st with followers := res.1 }, res.2)

/-- `_import_following`: run the shared loop over the payload's following
entries against the following table. -/
def importFollowing (pd : String → Option Int) (user : String)
    (dry : Bool) (st : Store) (data : ExportData) : Store × KindStats :=
  let res := importFollowList pd user dry st.following (followingOf data)
  ({ st with following := res.1 }, res.2)

/-- `_create_snapshot`: for a dict payload the counts come from the
top-level `data['Follower']['FansList']` / `data['Following']['Following']`
lists (not the nested `Profile And Settings` lists the import loops read);
for a list payload they come from the database.  A snapshot row is
appended only when either count is positive; `snapshot_date` is the wall
clock `datetime.now()`, passed in as `now`. -/
def createSnapshot (user : String) (data : ExportData) (now : Int)
    (st : Store) : Store :=
  let counts : Nat × Nat := match data with
    | .dict d => (d.topFansList.length, d.topFollowingList.length)
    | .flat _ =>
        ((st.followers.filter (fun r => r.user = user)).length,
         (st.following.filter (fun r => r.user = user)).length)
  if 0 < counts.1 ∨ 0 < counts.2 then
    { st with snapshots := st.snapshots ++ [⟨user, now, counts.1, counts.2⟩] }
  else st

/-- `_clear_existing_data`: delete every `Post` row (the deletion is not
scoped to any user — the model has no owning-user field), but only the
`Follower`/`Following` rows owned by the target user. -/
def clearExistingData (user : String) (clearPosts clearFollowers : Bool)
    (st : Store) : Store :=
  let st1 := if clearPosts then { st with posts := [] } else st
  if clearFollowers then
    { st1 with
      followers := st1.followers.filter (fun r => ¬ r.user = user)
      following := st1.following.filter (fun r => ¬ r.user = user) }
  else st1

/-- The body of `Command.handle` run inside `transaction.atomic()`, plus
the preceding clear step: clear existing data when requested and not
dry-run, import posts unless `--followers-only`, import followers and
following and (when not dry-run) create a snapshot unless `--posts-only`.
Returns the store as it stands at the end of the transaction body,
before any rollback. -/
def handleBody (pd : String → Option Int) (data : ExportData)
    (user : String) (dry clearExisting postsOnly followersOnly : Bool)
    (now : Int) (st : Store) : Store × HandleStats :=
  let st0 := if clearExisting ∧ ¬ dry then
    clearExistingData user (¬ followersOnly) (¬ postsOnly) st else st
  let p :=
    if ¬ followersOnly then importPosts pd dry st0 (postsOf data)
    else (st0, KindStats.zero)
  let f :=
    if ¬ postsOnly then importFollowers pd user dry p.1 data
    else (p.1, KindStats.zero)
  let g :=
    if ¬ postsOnly then importFollowing pd user dry f.1 data
    else (f.1, KindStats.zero)
  let st4 :=
    if ¬ postsOnly ∧ ¬ dry then createSnapshot user data now g.1 else g.1
  (st4, ⟨p.2, f.2, g.2⟩)

/-- `Command.handle` of `import_tiktok_json`: run the body in a
transaction; under dry-run a `CommandError` is raised at the end and
caught, so the transaction rolls back to the state at its start (the
clear step is itself suppressed under dry-run, so that state is the
initial store).  The summary statistics survive the rollback. -/
def handle (pd : String → Option Int) (data : ExportData)
    (user : String) (dry clearExisting postsOnly followersOnly : Bool)
    (now : Int) (st : Store) : Store × HandleStats :=
  let stCleared := if clearExisting ∧ ¬ dry then
    clearExistingData user (¬ followersOnly) (¬ postsOnly) st else st
  let (stFinal, stats) :=
    handleBody pd data user dry clearExisting postsOnly followersOnly now st
  (if dry then stCleared else stFinal, stats)

/-! ## History differ (`import_followers_history.py`) -/

/-- The result of `_extract_export_info` for one export file: the export
date (latest parsed entry date, or the file's modification time — both
external inputs) and the follower/following username sets (entries with a
non-empty stripped `UserName`). -/
structure ExportInfo where
  date : Int
  followers : Finset String
  following : Finset String
deriving DecidableEq

/-- One per-period change record built by `_analyze_history` for a pair
of consecutive exports. -/
structure HistoryChange where
  fromDate : Int
  toDate : Int
  followersGained : Finset String
  followersLost : Finset String
  followingGained : Finset String
  followingLost : Finset String
  netFollowers : Int
  netFollowing : Int
deriving DecidableEq

/-- One per-snapshot record built by `_analyze_history`. -/
structure HistorySnapshot where
  date : Int
  followerCount : Nat
  followingCount : Nat
  followers : Finset String
  following : Finset String
  gainedFollowers : Finset String
  lostFollowers : Finset String
  gainedFollowing : Finset String
  lostFollowing : Finset String
deriving DecidableEq

/-- The full result of `_analyze_history`. -/
structure HistoryAnalysis where
  snapshots : List HistorySnapshot
  totalGained : Finset String
  totalLost : Finset String
  changes : List HistoryChange
deriving DecidableEq

/-- The change record for the transition from `prev` to `cur`: pure set
differences of the follower/following sets, with net counts. -/
def mkChange (prev cur : ExportInfo) : HistoryChange :=
  let gainedF := cur.followers \ prev.followers
  let lostF := prev.followers \ cur.followers
  let gainedG := cur.following \ prev.following
  let lostG := prev.following \ cur.following
  { fromDate := prev.date
    toDate := cur.date
    followersGained := gainedF
    followersLost := lostF
    followingGained := gainedG
    followingLost := lostG
    netFollowers := (gainedF.card : Int) - (lostF.card : Int)
    netFollowing := (gainedG.card : Int) - (lostG.card : Int) }

/-- The snapshot record for an export at position `i > 0`, relative to
its immediate predecessor. -/
def diffSnapshot (prev cur : ExportInfo) : HistorySnapshot :=
  { date := cur.date
    followerCount := cur.followers.card
    followingCount := cur.following.card
    followers := cur.followers
    following := cur.following
    gainedFollowers := cur.followers \ prev.followers
    lostFollowers := prev.followers \ cur.followers
    gainedFollowing := cur.following \ prev.following
    lostFollowing := prev.following \ cur.following }

/-- The snapshot record for the first export: empty gained/lost sets. -/
def baseSnapshot (e : ExportInfo) : HistorySnapshot :=
  { date := e.date
    followerCount := e.followers.card
    followingCount := e.following.card
    followers := e.followers
    following := e.following
    gainedFollowers := ∅
    lostFollowers := ∅
    gainedFollowing := ∅
    lostFollowing := ∅ }

/-- The consecutive pairs `(exports[i-1], exports[i])` visited by the
`i > 0` branch of the `_analyze_history` loop. -/
def consecPairs : List ExportInfo → List (ExportInfo × ExportInfo)
  | [] => []
  | e0 :: rest => (e0 :: rest).zip rest

/-- `_analyze_history`: walk the exports in the order supplied, computing
per-snapshot and per-period set differences against the immediately
preceding export, and accumulate the unions of all gained-ever and
lost-ever follower usernames. -/
def analyzeHistory (exports : List ExportInfo) : HistoryAnalysis :=
  match exports with
  | [] => ⟨[], ∅, ∅, []⟩
  | e0 :: rest =>
      let pairs := consecPairs (e0 :: rest)
      let changes := pairs.map (fun pc => mkChange pc.1 pc.2)
      { snapshots := baseSnapshot e0 :: pairs.map (fun pc => diffSnapshot pc.1 pc.2)
        totalGained := changes.foldl (fun a c => a ∪ c.followersGained) ∅
        totalLost := changes.foldl (fun a c => a ∪ c.followersLost) ∅
        changes := changes }

/-- The `import_followers_history` command's analysis path
(`Command.handle`): the parsed exports are sorted ascending by their
extracted date (`exports.sort(key=lambda x: x['date'])`) before
`_analyze_history` runs.  Python's stable sort is modelled by
`List.insertionSort`. -/
def handleHistory (exports : List ExportInfo) : HistoryAnalysis :=
  analyzeHistory (exports.insertionSort (fun a b => a.date ≤ b.date))

/-! ## Analytics (`posts/analytics.py` and `posts/views.py`) -/

/-- The per-post data read by the trends aggregation: the indexed `date`
(abstract timestamp), the non-null `likes` and the nullable `views`. -/
structure TrendPost where
  date : Int
  likes : Int
  views : Option Int
deriving DecidableEq, Repr

/-- One emitted trends bucket, before JSON formatting: the truncated
period, the two totals, the two averages (exact rationals, prior to the
2-decimal rounding of the presentation layer) and the post count. -/
structure TrendBucket where
  period : Int
  totalLikes : Int
  totalViews : Int
  avgLikes : ℚ
  avgViews : ℚ
  postCount : Nat
deriving DecidableEq, Inhabited

/-- The posts of the requested window
(`Post.objects.filter(date__gte=start_date, date__lte=end_date)`). -/
def windowPosts (startDate endDate : Int) (posts : List TrendPost) :
    List TrendPost :=
  posts.filter (fun p => startDate ≤ p.date ∧ p.date ≤ endDate)

/-- The distinct period keys of the window, ascending
(`.values('period') ... .order_by('period')`); `trunc` is the
day/week/month truncation collaborator chosen by the `grouping` flag. -/
def bucketPeriods (trunc : Int → Int) (filtered : List TrendPost) :
    List Int :=
  ((filtered.map (fun p => trunc p.date)).dedup).insertionSort (· ≤ ·)

namespace PostViewSet

/-- `PostViewSet.trends` (`posts/views.py`, the routed implementation):
per bucket, `post_count = Count('id')`, `total_likes = Sum('likes')`,
`total_views = Sum('views')` (SQL sums ignore nulls; a null sum is
coalesced to 0 by `or 0`), `avg_likes`/`avg_views` the SQL averages over
non-null values (a null average is presented as 0), buckets ordered by
period ascending. -/
def trends (trunc : Int → Int) (startDate endDate : Int)
    (posts : List TrendPost) : List TrendBucket :=
  let filtered := windowPosts startDate endDate posts
  (bucketPeriods trunc filtered).map (fun k =>
    let group := filtered.filter (fun p => trunc p.date = k)
    let viewsPresent := group.filterMap (fun p => p.views)
    { period := k
      totalLikes := (group.map (fun p => p.likes)).sum
      totalViews := viewsPresent.sum
      avgLikes :=
        if group.length = 0 then 0
        else (((group.map (fun p => p.likes)).sum : Int) : ℚ) / group.length
      avgViews :=
        if viewsPresent.length = 0 then 0
        else ((viewsPresent.sum : Int) : ℚ) / viewsPresent.length
      postCount := group.length })

end PostViewSet

namespace AnalyticsViewSet

/-- `AnalyticsViewSet.trends` (`posts/analytics.py`, not routed by
`posts/urls.py`): identical to the `views.py` implementation except that
`total_likes = Count('likes')` and `total_views = Count('views')` — the
number of rows with a non-null value, not a sum (`likes` is never null,
so `total_likes` is the bucket's row count). -/
def trends (trunc : Int → Int) (startDate endDate : Int)
    (posts : List TrendPost) : List TrendBucket :=
  let filtered := windowPosts startDate endDate posts
  (bucketPeriods trunc filtered).map (fun k =>
    let group := filtered.filter (fun p => trunc p.date = k)
    let viewsPresent := group.filterMap (fun p => p.views)
    { period := k
      totalLikes := (group.length : Int)
      totalViews := (viewsPresent.length : Int)
      avgLikes :=
        if group.length = 0 then 0
        else (((group.map (fun p => p.likes)).sum : Int) : ℚ) / group.length
      avgViews :=
        if viewsPresent.length = 0 then 0
        else ((viewsPresent.sum : Int) : ℚ) / viewsPresent.length
      postCount := group.length })

end AnalyticsViewSet

/-- The per-post data read by `engagement_ratio_analysis`: the post date
(seconds timestamp), `likes`, and the nullable `comments`/`shares`. -/
structure EngPost where
  date : Int
  likes : Int
  comments : Option Int
  shares : Option Int
deriving DecidableEq, Repr

/-- `days_since_post = max((now - post_date).days, 1)`; Python's
`timedelta.days` is the floor of the difference in whole days. -/
def daysSincePost (now date : Int) : Int :=
  max ((now - date).fdiv 86400) 1

/-- One entry of the engagement-ratio ranking, before rounding (the
serialized post fields are represented by `date` and `likes`). -/
structure EngEntry where
  date : Int
  likes : Int
  days : Int
  totalEngagement : Int
  engagementPerDay : ℚ
  likesPerDay : ℚ
deriving DecidableEq

/-- The per-post computation of `engagement_ratio_analysis`:
`total_engagement = likes + (comments or 0) + (shares or 0)`, divided by
`days_since_post`. -/
def mkEngEntry (now : Int) (p : EngPost) : EngEntry :=
  let days := daysSincePost now p.date
  let total := p.likes + p.comments.getD 0 + p.shares.getD 0
  { date := p.date
    likes := p.likes
    days := days
    totalEngagement := total
    engagementPerDay := (total : ℚ) / (days : ℚ)
    likesPerDay := (p.likes : ℚ) / (days : ℚ) }

/-- `engagement_ratio_analysis` (identical in `posts/analytics.py` and
`posts/views.py`): compute the per-post entries, sort descending by
`engagement_per_day`, return the top `limit`. -/
def engagementRatioAnalysis (now : Int) (limit : Nat)
    (posts : List EngPost) : List EngEntry :=
  ((posts.map (mkEngEntry now)).insertionSort
    (fun a b => b.engagementPerDay ≤ a.engagementPerDay)).take limit

/-! ## Derived projections of the pipeline used to state the theorems -/

/-- The `post_id` keys present in the posts table. -/
def postIds (st : Store) : List String :=
  st.posts.map (fun p => p.postId)

/-- The `(user, username)` keys present in a follower/following table. -/
def followKeys (rows : List FollowRow) : List (String × String) :=
  rows.map (fun r => (r.user, r.username))

/-- The `post_id` that `_save_post` extracts from a raw record, when the
extraction does not raise: for export format, the trailing `Link` segment
truncated to 19 characters; for internal format, the `id` key. -/
def postIdOf : RawPost → Option String
  | .exportFmt e => some ((lastSegment e.link).take 19)
  | .internalFmt p => p.id

/-- Store-independent validity of a raw post record: all the checks of
`_convert_post_format` and `_save_post` that do not consult the store
(`int(Likes)` conversion, presence of the directly-indexed keys, date
parseability).  A real run creates a row for a record iff the record is
valid and its id is not already present. -/
def postValid (pd : String → Option Int) : RawPost → Bool
  | .exportFmt e => e.likes.isSome && (pd e.dateStr).isSome
  | .internalFmt p =>
      p.id.isSome &&
      (match p.dateStr with
       | none => false
       | some ds => (pd ds).isSome) &&
      p.title.isSome && p.likes.isSome && p.coverUrl.isSome &&
      p.videoLink.isSome

/-- The classification a dry run assigns to a raw post record:
`_save_post` returns `'created'` right after extracting the id, so the
only errors a dry run can see are the `int(Likes)` conversion and a
missing `id` key. -/
def dryPostOk : RawPost → Bool
  | .exportFmt e => e.likes.isSome
  | .internalFmt p => p.id.isSome

/-- Per-entry validity of a follower/following entry: non-empty stripped
`UserName` and a parseable `Date` (the two checks the loop body performs
before consulting the store). -/
def fanValid (pd : String → Option Int) (fan : RawFan) : Bool :=
  !(pyStrip fan.userName == "") && (pd fan.date).isSome

/-- The outcome the follower-loop body assigns to one entry (a function
of the entry and of the table as it stood when the loop started). -/
def fanOutcome (pd : String → Option Int) (user : String) (dry : Bool)
    (rows : List FollowRow) (fan : RawFan) : SaveOutcome :=
  if pyStrip fan.userName = "" then .errored
  else
    match pd fan.date with
    | none => .errored
    | some _ =>
        if dry then .created
        else if followKeyExists rows user (pyStrip fan.userName) then .skipped
        else .created

/-- The row the follower-loop body stages for the bulk insert, if any. -/
def fanStaged (pd : String → Option Int) (user : String) (dry : Bool)
    (rows : List FollowRow) (fan : RawFan) : Option FollowRow :=
  if pyStrip fan.userName = "" then none
  else
    match pd fan.date with
    | none => none
    | some d =>
        if dry then none
        else if followKeyExists rows user (pyStrip fan.userName) then none
        else some ⟨user, pyStrip fan.userName, d⟩

/-- Accumulate a list of per-record outcomes into the counters. -/
def KindStats.addOutcomes (s : KindStats) (outs : List SaveOutcome) :
    KindStats :=
  outs.foldl KindStats.addOutcome s

/-- Date comparison of exports is total. -/
instance : IsTotal ExportInfo fun a b => a.date ≤ b.date :=
  ⟨fun a b => Int.le_total a.date b.date⟩

/-- Date comparison of exports is transitive. -/
instance : IsTrans ExportInfo fun a b => a.date ≤ b.date :=
  ⟨fun _ _ _ h h' => le_trans h h'⟩

/-! ## Theorems -/

/-- The change records of `_analyze_history` are exactly the per-pair set
differences over consecutive exports, in the order analysed. -/
theorem analyzeHistory_changes (exports : List ExportInfo) :
    (analyzeHistory exports).changes
      = (consecPairs exports).map (fun pc => mkChange pc.1 pc.2) := by
  cases exports <;> rfl

/-- `_analyze_history` emits one snapshot per export, in the order the
exports are supplied, carrying their dates: the differ itself does not
reorder its input. -/
theorem analyzeHistory_dates (exports : List ExportInfo) :
    (analyzeHistory exports).snapshots.map (fun s => s.date)
      = exports.map (fun e => e.date) := by
  cases exports with
  | nil => rfl
  | cons e0 rest =>
      show (baseSnapshot e0 ::
          ((e0 :: rest).zip rest).map (fun pc => diffSnapshot pc.1 pc.2)).map
            (fun s => s.date) = _
      simp only [List.map_cons, List.map_map]
      have hcomp :
          ((fun s : HistorySnapshot => s.date) ∘
              fun pc : ExportInfo × ExportInfo => diffSnapshot pc.1 pc.2)
            = (fun e : ExportInfo => e.date) ∘ Prod.snd := rfl
      rw [hcomp, ← List.map_map, List.map_snd_zip _ _ (by simp)]
      rfl

/-- C10: the Post model is not scoped to an owning user: the
clear-existing step deletes every `Post` row in the store regardless of
the target user, while the `Follower`/`Following` deletions it performs
keep exactly the rows owned by other users. -/
theorem clearExisting_posts_unscoped_follows_scoped (user : String)
    (st : Store) :
    (clearExistingData user true true st).posts = [] ∧
    (clearExistingData user true true st).followers
      = st.followers.filter (fun r => ¬ r.user = user) ∧
    (clearExistingData user true true st).following
      = st.following.filter (fun r => ¬ r.user = user) := by
  simp [clearExistingData]

/-- C7: in every transition of a history analysis, the gained and lost
follower sets are disjoint, and likewise for following: a username cannot
be both gained and lost in the same transition. -/
theorem history_gained_lost_disjoint (exports : List ExportInfo)
    (c : HistoryChange) (h : c ∈ (analyzeHistory exports).changes) :
    c.followersGained ∩ c.followersLost = ∅ ∧
    c.followingGained ∩ c.followingLost = ∅ := by
  rw [analyzeHistory_changes] at h
  obtain ⟨pc, -, rfl⟩ := List.mem_map.mp h
  constructor <;>
    · ext x
      simp only [mkChange, Finset.mem_inter, Finset.mem_sdiff,
        Finset.not_mem_empty, iff_false, not_and]
      tauto

/-- Witness for C7 at a concrete two-export history. -/
theorem history_gained_lost_disjoint_witness :
    (mkChange ⟨1, {"a"}, ∅⟩ ⟨2, {"a", "b"}, ∅⟩).followersGained ∩
      (mkChange ⟨1, {"a"}, ∅⟩ ⟨2, {"a", "b"}, ∅⟩).followersLost = ∅ ∧
    (mkChange ⟨1, {"a"}, ∅⟩ ⟨2, {"a", "b"}, ∅⟩).followingGained ∩
      (mkChange ⟨1, {"a"}, ∅⟩ ⟨2, {"a", "b"}, ∅⟩).followingLost = ∅ :=
  history_gained_lost_disjoint
    [⟨1, {"a"}, ∅⟩, ⟨2, {"a", "b"}, ∅⟩] _ (by decide)

/-- C4 counterexample: mis-ordered input is NOT processed as given — the
command sorts the exports by date first.  With the later export supplied
first, the command's analysis differs from the as-given analysis. -/
theorem history_command_not_as_given :
    handleHistory [⟨2, {"a", "b"}, ∅⟩, ⟨1, {"a"}, ∅⟩] ≠
      analyzeHistory [⟨2, {"a", "b"}, ∅⟩, ⟨1, {"a"}, ∅⟩] := by decide

/-- C4 amended: `_analyze_history` itself computes pure set differences
over the sequence in the order supplied (it emits the export dates
unpermuted), but the command sorts the parsed exports ascending by
extracted date before analysing, so mis-ordered input files are
auto-corrected rather than processed as given: the command's snapshot
dates are always ascending. -/
theorem history_differ_pure_but_command_sorts (exports : List ExportInfo) :
    (analyzeHistory exports).snapshots.map (fun s => s.date)
      = exports.map (fun e => e.date) ∧
    ((handleHistory exports).snapshots.map (fun s => s.date)).Sorted
      (· ≤ ·) := by
  refine ⟨analyzeHistory_dates exports, ?_⟩
  rw [handleHistory, analyzeHistory_dates]
  exact (List.sorted_insertionSort _ exports).map _ (fun a b h => h)

/-- C5 evidence: on a payload in the documented nested
`Profile And Settings` shape carrying one follower entry, a real
(non-dry-run) import creates the follower row but no `FollowerSnapshot`
at all: `_create_snapshot` reads the top-level `data['Follower']` /
`data['Following']` keys, which the documented shape does not populate,
so both counts are 0 and the creation branch never fires. -/
theorem snapshot_not_created_for_nested_payload :
    ((handle (fun _ => some 7)
        (ExportData.dict ⟨[], [⟨"alice", "2024"⟩], [], [], []⟩)
        "admin" false false false false 100 ⟨[], [], [], []⟩).1.followers.length
      = 1) ∧
    (handle (fun _ => some 7)
        (ExportData.dict ⟨[], [⟨"alice", "2024"⟩], [], [], []⟩)
        "admin" false false false false 100 ⟨[], [], [], []⟩).1.snapshots
      = [] := by decide

/-- C2 counterexample: in `AnalyticsViewSet.trends` (`posts/analytics.py`)
a bucket's `total_likes` is the COUNT of rows with a non-null `likes`
value, not the sum of likes: one post with 7 likes yields a bucket
reporting `total_likes = 1` while the bucket's likes sum to 7. -/
theorem analytics_trends_reports_count_not_sum :
    (AnalyticsViewSet.trends (fun d => d) 0 10 [⟨5, 7, none⟩]).map
        (fun b => b.totalLikes) = [1] ∧
    ((windowPosts 0 10 [⟨5, 7, none⟩]).map (fun p => p.likes)).sum = 7 ∧
    (1 : Int) ≠ 7 := by
  refine ⟨by decide, by decide, by decide⟩

/-- C2 amended: in the routed trends implementation
(`PostViewSet.trends`, `posts/views.py`) every emitted bucket reports the
count of the window's posts falling in the bucket, the SUM of their likes
and of their (non-null) views, and the corresponding averages, and the
buckets are emitted in strictly ascending period order.  (The
`posts/analytics.py` copy instead reports non-null-value COUNTS in
`total_likes`/`total_views`.) -/
theorem postviewset_trends_sums_and_order (trunc : Int → Int)
    (startDate endDate : Int) (posts : List TrendPost) :
    (∀ b ∈ PostViewSet.trends trunc startDate endDate posts,
      b.postCount
          = ((windowPosts startDate endDate posts).filter
              (fun p => trunc p.date = b.period)).length ∧
      0 < b.postCount ∧
      b.totalLikes
          = (((windowPosts startDate endDate posts).filter
              (fun p => trunc p.date = b.period)).map (fun p => p.likes)).sum ∧
      b.totalViews
          = (((windowPosts startDate endDate posts).filter
              (fun p => trunc p.date = b.period)).filterMap
                (fun p => p.views)).sum ∧
      b.avgLikes = (b.totalLikes : ℚ) / (b.postCount : ℚ)) ∧
    ((PostViewSet.trends trunc startDate endDate posts).map
        (fun b => b.period)).Sorted (· < ·) := by
  constructor
  · intro b hb
    simp only [PostViewSet.trends, List.mem_map] at hb
    obtain ⟨k, hk, rfl⟩ := hb
    have hne : 0 < ((windowPosts startDate endDate posts).filter
        (fun p => trunc p.date = k)).length := by
      have hk' : k ∈ ((windowPosts startDate endDate posts).map
          (fun p => trunc p.date)).dedup :=
        ((List.perm_insertionSort _ _).mem_iff).mp hk
      obtain ⟨p, hp, hpk⟩ := List.mem_map.mp (List.mem_dedup.mp hk')
      have : p ∈ (windowPosts startDate endDate posts).filter
          (fun q => trunc q.date = k) :=
        List.mem_filter.mpr ⟨hp, by simp [hpk]⟩
      exact List.length_pos.mpr (List.ne_nil_of_mem this)
    refine ⟨rfl, hne, rfl, rfl, ?_⟩
    simp only []
    rw [if_neg (by omega)]
  · have hmap : (PostViewSet.trends trunc startDate endDate posts).map
        (fun b => b.period)
        = bucketPeriods trunc (windowPosts startDate endDate posts) := by
      simp only [PostViewSet.trends, List.map_map]
      exact List.map_id _
    rw [hmap]
    have hsorted : (bucketPeriods trunc
        (windowPosts startDate endDate posts)).Sorted (· ≤ ·) :=
      List.sorted_insertionSort _ _
    have hnodup : (bucketPeriods trunc
        (windowPosts startDate endDate posts)).Nodup :=
      ((List.perm_insertionSort _ _).nodup_iff).mpr (List.nodup_dedup _)
    exact hsorted.lt_of_le hnodup

/-- Witness for C2 at a concrete one-post window, instantiated at the
first emitted bucket. -/
theorem postviewset_trends_sums_and_order_witness :
    ((PostViewSet.trends (fun d => d) 0 10 [⟨5, 7, some 3⟩]).map
        (fun b => b.period)).Sorted (· < ·) ∧
    (PostViewSet.trends (fun d => d) 0 10 [⟨5, 7, some 3⟩]).headI.postCount
        = ((windowPosts 0 10 [⟨5, 7, some 3⟩]).filter
            (fun p => p.date = (PostViewSet.trends (fun d => d) 0 10
              [⟨5, 7, some 3⟩]).headI.period)).length ∧
    (PostViewSet.trends (fun d => d) 0 10 [⟨5, 7, some 3⟩]).headI.totalLikes
        = (((windowPosts 0 10 [⟨5, 7, some 3⟩]).filter
            (fun p => p.date = (PostViewSet.trends (fun d => d) 0 10
              [⟨5, 7, some 3⟩]).headI.period)).map (fun p => p.likes)).sum := by
  have hmem : (PostViewSet.trends (fun d => d) 0 10
      [⟨5, 7, some 3⟩]).headI ∈
      PostViewSet.trends (fun d => d) 0 10 [⟨5, 7, some 3⟩] :=
    List.Mem.head _
  obtain ⟨h1, -, h3, -⟩ := (postviewset_trends_sums_and_order (fun d => d)
      0 10 [⟨5, 7, some 3⟩]).1 _ hmem
  exact ⟨(postviewset_trends_sums_and_order (fun d => d) 0 10
      [⟨5, 7, some 3⟩]).2, h1, h3⟩

/-- Under dry-run, `_save_post` classifies the record right after the id
extraction, without touching the store. -/
theorem savePost_dry (pd : String → Option Int) (st : Store)
    (p : InternalPost) :
    savePost pd true st p
      = (st, if p.id.isSome then .created else .errored) := by
  cases h : p.id <;> simp [savePost, h]

/-- Under dry-run, a post record's outcome is `created` iff format
conversion and id extraction succeed, and the store is untouched. -/
theorem processPost_dry (pd : String → Option Int) (st : Store)
    (r : RawPost) :
    processPost pd true st r
      = (st, if dryPostOk r then .created else .errored) := by
  cases r with
  | exportFmt e =>
      cases h : e.likes <;>
        simp [processPost, convertPostFormat, h, savePost_dry, dryPostOk]
  | internalFmt p => simp [processPost, savePost_dry, dryPostOk]

/-- The dry-run posts fold leaves the store untouched and accumulates the
store-independent outcomes. -/
theorem importPosts_dry_fold (pd : String → Option Int)
    (l : List RawPost) :
    ∀ (st : Store) (acc : KindStats),
    l.foldl (importPostsStep pd true) (st, acc)
      = (st, acc.addOutcomes (l.map
          (fun r => if dryPostOk r then SaveOutcome.created else .errored))) := by
  induction l with
  | nil => intro st acc; simp [KindStats.addOutcomes]
  | cons r l ih =>
      intro st acc
      have hstep : importPostsStep pd true (st, acc) r
          = (st, acc.addOutcome
              (if dryPostOk r then SaveOutcome.created else .errored)) := by
        simp [importPostsStep, processPost_dry]
      simp only [List.foldl_cons, List.map_cons, hstep, ih]
      rfl

/-- `_import_posts` under dry-run: store untouched, classification a pure
function of the records. -/
theorem importPosts_dry (pd : String → Option Int) (st : Store)
    (l : List RawPost) :
    importPosts pd true st l
      = (st, KindStats.zero.addOutcomes (l.map
          (fun r => if dryPostOk r then SaveOutcome.created else .errored))) :=
  importPosts_dry_fold pd l st KindStats.zero

/-- The dry-run follower import leaves the relation table untouched (the
bulk insert is suppressed). -/
theorem importFollowList_dry_rows (pd : String → Option Int)
    (user : String) (rows : List FollowRow) (fans : List RawFan) :
    (importFollowList pd user true rows fans).1 = rows := by
  simp [importFollowList]

/-- C1: running the import command with the dry-run flag leaves the
store — all four tables, hence every persisted row count — exactly
unchanged: the clear-existing deletion and the snapshot creation are
suppressed under dry-run, every per-record step leaves the store
untouched even before any rollback (`handleBody` is the state at the end
of the transaction body), and the deliberately-aborted transaction
restores the initial state (`handle`). -/
theorem dry_run_no_persisted_change (pd : String → Option Int)
    (data : ExportData) (user : String)
    (clearExisting postsOnly followersOnly : Bool) (now : Int)
    (st : Store) :
    (handleBody pd data user true clearExisting postsOnly followersOnly
        now st).1 = st ∧
    (handle pd data user true clearExisting postsOnly followersOnly
        now st).1 = st := by
  have hbody : (handleBody pd data user true clearExisting postsOnly
      followersOnly now st).1 = st := by
    simp only [handleBody]
    cases postsOnly <;> cases followersOnly <;>
      simp [importPosts_dry, importFollowers, importFollowing,
        importFollowList_dry_rows]
  refine ⟨hbody, ?_⟩
  simp [handle, hbody]

/-- One follower-loop step, in closed form: append the staged row (if
any) and record the outcome. -/
theorem followStep_eq (pd : String → Option Int) (user : String)
    (dry : Bool) (rows : List FollowRow)
    (acc : List FollowRow × KindStats) (fan : RawFan) :
    followStep pd user dry rows acc fan
      = (acc.1 ++ (fanStaged pd user dry rows fan).toList,
         acc.2.addOutcome (fanOutcome pd user dry rows fan)) := by
  unfold followStep fanStaged fanOutcome
  by_cases h : pyStrip fan.userName = ""
  · simp [h]
  · simp only [if_neg h]
    cases hpd : pd fan.date with
    | none => simp
    | some d =>
        cases dry with
        | true => simp
        | false =>
            by_cases hex : followKeyExists rows user (pyStrip fan.userName)
              <;> simp [hex]

/-- The follower loop, in closed form: the staged rows are the
`filterMap` of the per-entry staging function and the counters accumulate
the per-entry outcomes (both functions of the table as it stood when the
loop started). -/
theorem followFold_eq (pd : String → Option Int) (user : String)
    (dry : Bool) (rows : List FollowRow) (fans : List RawFan) :
    ∀ (tc : List FollowRow) (acc : KindStats),
    fans.foldl (followStep pd user dry rows) (tc, acc)
      = (tc ++ fans.filterMap (fanStaged pd user dry rows),
         acc.addOutcomes (fans.map (fanOutcome pd user dry rows))) := by
  induction fans with
  | nil => intro tc acc; simp [KindStats.addOutcomes]
  | cons fan fans ih =>
      intro tc acc
      simp only [List.foldl_cons, followStep_eq, ih, List.map_cons,
        List.filterMap_cons]
      cases hst : fanStaged pd user dry rows fan with
      | none => simp [hst, KindStats.addOutcomes]
      | some row => simp [hst, KindStats.addOutcomes]

/-- `importFollowList` in closed form. -/
theorem importFollowList_eq (pd : String → Option Int) (user : String)
    (dry : Bool) (rows : List FollowRow) (fans : List RawFan) :
    importFollowList pd user dry rows fans
      = (if dry then rows
         else bulkInsertFollow rows
            (fans.filterMap (fanStaged pd user dry rows)),
         KindStats.zero.addOutcomes
            (fans.map (fanOutcome pd user dry rows))) := by
  simp [importFollowList, followFold_eq]

/-- `created` component of `addOutcome`. -/
theorem addOutcome_created (acc : KindStats) (o : SaveOutcome) :
    (acc.addOutcome o).created
      = acc.created + if o = .created then 1 else 0 := by
  cases o <;> simp [KindStats.addOutcome]

/-- `skipped` component of `addOutcome`. -/
theorem addOutcome_skipped (acc : KindStats) (o : SaveOutcome) :
    (acc.addOutcome o).skipped
      = acc.skipped + if o = .skipped then 1 else 0 := by
  cases o <;> simp [KindStats.addOutcome]

/-- `errors` component of `addOutcome`. -/
theorem addOutcome_errors (acc : KindStats) (o : SaveOutcome) :
    (acc.addOutcome o).errors
      = acc.errors + if o = .errored then 1 else 0 := by
  cases o <;> simp [KindStats.addOutcome]

/-- `created` counts occurrences of `created` among the outcomes. -/
theorem addOutcomes_created (outs : List SaveOutcome) :
    ∀ acc : KindStats,
    (KindStats.addOutcomes acc outs).created
      = acc.created + outs.count .created := by
  induction outs with
  | nil => intro acc; simp [KindStats.addOutcomes]
  | cons o outs ih =>
      intro acc
      have : KindStats.addOutcomes acc (o :: outs)
          = KindStats.addOutcomes (acc.addOutcome o) outs := rfl
      rw [this, ih, addOutcome_created, List.count_cons]
      rcases o <;> simp <;> omega

/-- `skipped` counts occurrences of `skipped` among the outcomes. -/
theorem addOutcomes_skipped (outs : List SaveOutcome) :
    ∀ acc : KindStats,
    (KindStats.addOutcomes acc outs).skipped
      = acc.skipped + outs.count .skipped := by
  induction outs with
  | nil => intro acc; simp [KindStats.addOutcomes]
  | cons o outs ih =>
      intro acc
      have : KindStats.addOutcomes acc (o :: outs)
          = KindStats.addOutcomes (acc.addOutcome o) outs := rfl
      rw [this, ih, addOutcome_skipped, List.count_cons]
      rcases o <;> simp <;> omega

/-- `errors` counts occurrences of `errored` among the outcomes. -/
theorem addOutcomes_errors (outs : List SaveOutcome) :
    ∀ acc : KindStats,
    (KindStats.addOutcomes acc outs).errors
      = acc.errors + outs.count .errored := by
  induction outs with
  | nil => intro acc; simp [KindStats.addOutcomes]
  | cons o outs ih =>
      intro acc
      have : KindStats.addOutcomes acc (o :: outs)
          = KindStats.addOutcomes (acc.addOutcome o) outs := rfl
      rw [this, ih, addOutcome_errors, List.count_cons]
      rcases o <;> simp <;> omega

/-- Counting one of two distinct outcome labels over a mapped
if-then-else counts the predicate. -/
theorem count_map_ite {α : Type} (q : α → Bool) (l : List α)
    (o1 o2 : SaveOutcome) (h : ¬ o1 = o2) :
    ((l.map (fun r => if q r then o1 else o2)).count o1) = l.countP q ∧
    ((l.map (fun r => if q r then o1 else o2)).count o2)
      = l.countP (fun r => !q r) := by
  induction l with
  | nil => simp
  | cons r l ih =>
      cases hq : q r <;>
        simp [List.count_cons, List.countP_cons, hq, h, Ne.symm h, ih.1, ih.2]

/-- Under dry-run a follower entry's outcome is its validation result:
the existence check against the store is skipped entirely. -/
theorem fanOutcome_dry (pd : String → Option Int) (user : String)
    (rows : List FollowRow) (fan : RawFan) :
    fanOutcome pd user true rows fan
      = if fanValid pd fan then .created else .errored := by
  by_cases h : pyStrip fan.userName = "" <;>
    cases hpd : pd fan.date <;>
      simp [fanOutcome, fanValid, h, hpd]

/-- Under dry-run no row is ever staged for insertion. -/
theorem fanStaged_dry (pd : String → Option Int) (user : String)
    (rows : List FollowRow) (fan : RawFan) :
    fanStaged pd user true rows fan = none := by
  by_cases h : pyStrip fan.userName = "" <;>
    cases hpd : pd fan.date <;>
      simp [fanStaged, h, hpd]

/-- In a real run a follower entry's outcome is: `errored` when invalid,
otherwise `skipped`/`created` according to the existence check. -/
theorem fanOutcome_real (pd : String → Option Int) (user : String)
    (rows : List FollowRow) (fan : RawFan) :
    fanOutcome pd user false rows fan
      = if fanValid pd fan then
          (if followKeyExists rows user (pyStrip fan.userName) then
            .skipped else .created)
        else .errored := by
  by_cases h : pyStrip fan.userName = "" <;>
    cases hpd : pd fan.date <;>
      by_cases hex : followKeyExists rows user (pyStrip fan.userName) <;>
        simp [fanOutcome, fanValid, h, hpd, hex]

/-- In a real run the `errored` outcomes are exactly the invalid
entries. -/
theorem count_fanOutcome_real_errored (pd : String → Option Int)
    (user : String) (rows : List FollowRow) (fans : List RawFan) :
    ((fans.map (fanOutcome pd user false rows)).count .errored)
      = fans.countP (fun f => !(fanValid pd f)) := by
  induction fans with
  | nil => simp
  | cons fan fans ih =>
      rw [List.map_cons, List.count_cons, List.countP_cons, fanOutcome_real]
      by_cases hv : fanValid pd fan <;>
        by_cases hex : followKeyExists rows user (pyStrip fan.userName) <;>
          simp [hv, hex, ih]

/-- In a real run the valid entries are exactly those classified
`created` or `skipped`. -/
theorem count_fanOutcome_real_created_skipped (pd : String → Option Int)
    (user : String) (rows : List FollowRow) (fans : List RawFan) :
    ((fans.map (fanOutcome pd user false rows)).count .created)
      + ((fans.map (fanOutcome pd user false rows)).count .skipped)
      = fans.countP (fanValid pd) := by
  induction fans with
  | nil => simp
  | cons fan fans ih =>
      rw [List.map_cons, List.count_cons, List.count_cons,
        List.countP_cons, fanOutcome_real]
      by_cases hv : fanValid pd fan <;>
        by_cases hex : followKeyExists rows user (pyStrip fan.userName) <;>
          simp [hv, hex] <;> omega

/-- C3 counterexample: dry-run classification differs from the real
run's.  On a store already holding post id `"X"` and a payload
re-importing that same post, the dry run reports it `created` while the
real run reports it `skipped`. -/
theorem dry_run_classification_differs :
    (importPosts (fun _ => some 5) true
        ⟨[⟨"X", "t", 1, 0, "c", "v"⟩], [], [], []⟩
        [.internalFmt ⟨some "X", some "t", some 1, some "5", some "c",
          some "v"⟩]).2.created = 1 ∧
    (importPosts (fun _ => some 5) false
        ⟨[⟨"X", "t", 1, 0, "c", "v"⟩], [], [], []⟩
        [.internalFmt ⟨some "X", some "t", some 1, some "5", some "c",
          some "v"⟩]).2.created = 0 ∧
    (importPosts (fun _ => some 5) false
        ⟨[⟨"X", "t", 1, 0, "c", "v"⟩], [], [], []⟩
        [.internalFmt ⟨some "X", some "t", some 1, some "5", some "c",
          some "v"⟩]).2.skipped = 1 ∧
    (1 : Nat) ≠ 0 := by decide

/-- C3 amended: validate-only (dry-run) mode withholds the persisted
mutation but NOT only that — it also withholds the create/skip detection
against existing state (and, for posts, the date validation): the store
is untouched; every post record whose format conversion and id
extraction succeed is classified `created` (never `skipped`, regardless
of existing rows or date validity); every follower/following entry
undergoes the same per-row validation as a real run (identical error
classification) but every valid entry is classified `created`, whereas
the real run splits exactly those valid entries into `created` plus
`skipped`. -/
theorem validate_only_withholds_detection (pd : String → Option Int)
    (st : Store) (records : List RawPost) (user : String)
    (rows : List FollowRow) (fans : List RawFan) :
    (importPosts pd true st records).1 = st ∧
    (importPosts pd true st records).2.created = records.countP dryPostOk ∧
    (importPosts pd true st records).2.skipped = 0 ∧
    (importPosts pd true st records).2.errors
      = records.countP (fun r => !dryPostOk r) ∧
    (importFollowList pd user true rows fans).1 = rows ∧
    (importFollowList pd user true rows fans).2.created
      = fans.countP (fanValid pd) ∧
    (importFollowList pd user true rows fans).2.skipped = 0 ∧
    (importFollowList pd user true rows fans).2.errors
      = fans.countP (fun f => !(fanValid pd f)) ∧
    (importFollowList pd user false rows fans).2.errors
      = fans.countP (fun f => !(fanValid pd f)) ∧
    (importFollowList pd user false rows fans).2.created
      + (importFollowList pd user false rows fans).2.skipped
      = fans.countP (fanValid pd) := by
  have hposts := importPosts_dry pd st records
  have hmap := count_map_ite dryPostOk records SaveOutcome.created
    SaveOutcome.errored (by simp)
  have hmapsk : ((records.map (fun r =>
      if dryPostOk r then SaveOutcome.created else .errored)).count
        .skipped) = 0 := by
    rw [List.count_eq_zero]
    intro hmem
    obtain ⟨r, -, hr⟩ := List.mem_map.mp hmem
    by_cases hq : dryPostOk r <;> simp [hq] at hr
  have hfanmap := count_map_ite (fanValid pd) fans SaveOutcome.created
    SaveOutcome.errored (by simp)
  have hfansk : ((fans.map (fun f =>
      if fanValid pd f then SaveOutcome.created else .errored)).count
        .skipped) = 0 := by
    rw [List.count_eq_zero]
    intro hmem
    obtain ⟨f, -, hf⟩ := List.mem_map.mp hmem
    by_cases hq : fanValid pd f <;> simp [hq] at hf
  have hdryout : (fans.map (fanOutcome pd user true rows))
      = fans.map (fun f =>
          if fanValid pd f then SaveOutcome.created else .errored) := by
    exact List.map_congr_left (fun f _ => fanOutcome_dry pd user rows f)
  refine ⟨by rw [hposts],
    by rw [hposts]; simp [addOutcomes_created, hmap.1, KindStats.zero],
    by rw [hposts]; simp [addOutcomes_skipped, hmapsk, KindStats.zero],
    by rw [hposts]; simp [addOutcomes_errors, hmap.2, KindStats.zero],
    importFollowList_dry_rows pd user rows fans, ?_, ?_, ?_, ?_, ?_⟩
  · rw [importFollowList_eq]
    simp [addOutcomes_created, hdryout, hfanmap.1, KindStats.zero]
  · rw [importFollowList_eq]
    simp [addOutcomes_skipped, hdryout, hfansk, KindStats.zero]
  · rw [importFollowList_eq]
    simp [addOutcomes_errors, hdryout, hfanmap.2, KindStats.zero]
  · rw [importFollowList_eq]
    simp [addOutcomes_errors, count_fanOutcome_real_errored, KindStats.zero]
  · rw [importFollowList_eq]
    simp [addOutcomes_created, addOutcomes_skipped,
      count_fanOutcome_real_created_skipped, KindStats.zero]

/-- `_save_post` either leaves the store untouched or creates exactly the
row keyed by the extracted id. -/
theorem savePost_store (pd : String → Option Int) (dry : Bool)
    (st : Store) (p : InternalPost) :
    (savePost pd dry st p).1 = st ∨
    ((savePost pd dry st p).2 = .created ∧ ∃ row,
      (savePost pd dry st p).1 = { st with posts := st.posts ++ [row] } ∧
      some row.postId = p.id) := by
  unfold savePost
  rcases hid : p.id with _ | pid
  · simp
  · by_cases hdry : dry
    · simp [hdry]
    · simp only [hdry, Bool.false_eq_true, if_false]
      by_cases hex : st.postExists pid
      · simp [hex]
      · simp only [hex, Bool.false_eq_true, if_false]
        rcases hds : p.dateStr with _ | ds
        · simp
        · rcases hpd : pd ds with _ | d
          · simp [hpd]
          · rcases ht : p.title with _ | t
            · simp [hpd, ht]
            · rcases hlk : p.likes with _ | lk
              · simp [hpd, ht, hlk]
              · rcases hcu : p.coverUrl with _ | cu
                · simp [hpd, ht, hlk, hcu]
                · rcases hvl : p.videoLink with _ | vl
                  · simp [hpd, ht, hlk, hcu, hvl]
                  · refine Or.inr ⟨?_, ⟨pid, t, lk, d, cu, vl⟩, ?_, ?_⟩ <;>
                      simp [hpd, ht, hlk, hcu, hvl, hid]

/-- One `_import_posts` record either leaves the store untouched or
creates exactly the row keyed by the extracted id. -/
theorem processPost_store (pd : String → Option Int) (dry : Bool)
    (st : Store) (r : RawPost) :
    (processPost pd dry st r).1 = st ∨
    ((processPost pd dry st r).2 = .created ∧ ∃ row,
      (processPost pd dry st r).1
        = { st with posts := st.posts ++ [row] } ∧
      some row.postId = postIdOf r) := by
  cases r with
  | exportFmt e =>
      rcases hlk : e.likes with _ | lk
      · simp [processPost, convertPostFormat, hlk]
      · have h := savePost_store pd dry st
          { id := some ((lastSegment e.link).take 19)
            title := some e.title
            likes := some lk
            dateStr := some e.dateStr
            coverUrl := some (e.coverImage.getD e.link)
            videoLink := some e.link }
        simpa [processPost, convertPostFormat, hlk, postIdOf] using h
  | internalFmt p =>
      simpa [processPost, postIdOf] using savePost_store pd dry st p

/-- A record that is not classified `created` leaves the store
untouched. -/
theorem processPost_not_created_store (pd : String → Option Int)
    (dry : Bool) (st : Store) (r : RawPost)
    (h : ¬ (processPost pd dry st r).2 = .created) :
    (processPost pd dry st r).1 = st := by
  rcases processPost_store pd dry st r with h1 | ⟨h1, -⟩
  · exact h1
  · exact absurd h1 h

/-- The `_import_posts` step in explicit form. -/
theorem importPostsStep_eq (pd : String → Option Int) (dry : Bool)
    (st : Store) (acc : KindStats) (r : RawPost) :
    importPostsStep pd dry (st, acc) r
      = ((processPost pd dry st r).1,
         acc.addOutcome (processPost pd dry st r).2) := rfl

/-- The final store of the posts fold does not depend on the starting
counters, and the final `created`/`skipped`/`errors` counters are the
starting counters plus the contribution of the records. -/
theorem importPosts_fold_acc (pd : String → Option Int) (dry : Bool)
    (l : List RawPost) :
    ∀ (st : Store) (acc : KindStats),
    (l.foldl (importPostsStep pd dry) (st, acc)).1
      = (l.foldl (importPostsStep pd dry) (st, KindStats.zero)).1 ∧
    (l.foldl (importPostsStep pd dry) (st, acc)).2.created
      = acc.created
        + (l.foldl (importPostsStep pd dry) (st, KindStats.zero)).2.created ∧
    (l.foldl (importPostsStep pd dry) (st, acc)).2.skipped
      = acc.skipped
        + (l.foldl (importPostsStep pd dry) (st, KindStats.zero)).2.skipped ∧
    (l.foldl (importPostsStep pd dry) (st, acc)).2.errors
      = acc.errors
        + (l.foldl (importPostsStep pd dry) (st, KindStats.zero)).2.errors := by
  induction l with
  | nil => intro st acc; simp [KindStats.zero]
  | cons r l ih =>
      intro st acc
      simp only [List.foldl_cons, importPostsStep_eq]
      obtain ⟨hs1, hc1, hk1, he1⟩ :=
        ih (processPost pd dry st r).1
          (acc.addOutcome (processPost pd dry st r).2)
      obtain ⟨hs2, hc2, hk2, he2⟩ :=
        ih (processPost pd dry st r).1
          (KindStats.zero.addOutcome (processPost pd dry st r).2)
      refine ⟨hs1.trans hs2.symm, ?_, ?_, ?_⟩
      · rw [hc1, hc2, addOutcome_created, addOutcome_created]
        simp only [KindStats.zero]
        omega
      · rw [hk1, hk2, addOutcome_skipped, addOutcome_skipped]
        simp only [KindStats.zero]
        omega
      · rw [he1, he2, addOutcome_errors, addOutcome_errors]
        simp only [KindStats.zero]
        omega

/-- `addOutcome` preserves the "printed = min(errors, 5)" invariant. -/
theorem addOutcome_printed_inv (acc : KindStats) (o : SaveOutcome)
    (h : acc.printed = min acc.errors 5) :
    (acc.addOutcome o).printed = min (acc.addOutcome o).errors 5 := by
  cases o with
  | created => simpa [KindStats.addOutcome] using h
  | skipped => simpa [KindStats.addOutcome] using h
  | errored =>
      simp only [KindStats.addOutcome]
      split <;> omega

/-- Throughout the posts fold, the number of verbosely printed error
messages is `min(errors, 5)`: only the first five errors are reported
verbosely, the remainder are only counted. -/
theorem importPosts_fold_printed (pd : String → Option Int) (dry : Bool)
    (l : List RawPost) :
    ∀ (st : Store) (acc : KindStats),
    acc.printed = min acc.errors 5 →
    (l.foldl (importPostsStep pd dry) (st, acc)).2.printed
      = min (l.foldl (importPostsStep pd dry) (st, acc)).2.errors 5 := by
  induction l with
  | nil => intro st acc h; simpa using h
  | cons r l ih =>
      intro st acc h
      simp only [List.foldl_cons, importPostsStep_eq]
      exact ih _ _ (addOutcome_printed_inv acc _ h)

/-- An invalid follower/following entry (empty stripped username or
unparseable date) is classified `errored` by the loop body, regardless of
the store or the dry-run flag. -/
theorem fanOutcome_invalid (pd : String → Option Int) (user : String)
    (dry : Bool) (rows : List FollowRow) (fan : RawFan)
    (h : fanValid pd fan = false) :
    fanOutcome pd user dry rows fan = .errored := by
  unfold fanOutcome
  by_cases hne : pyStrip fan.userName = ""
  · simp [hne]
  · rcases hpd : pd fan.date with _ | d
    · simp [hne, hpd]
    · exact absurd h (by simp [fanValid, hne, hpd])

/-- An invalid follower/following entry stages no row. -/
theorem fanStaged_invalid (pd : String → Option Int) (user : String)
    (dry : Bool) (rows : List FollowRow) (fan : RawFan)
    (h : fanValid pd fan = false) :
    fanStaged pd user dry rows fan = none := by
  unfold fanStaged
  by_cases hne : pyStrip fan.userName = ""
  · simp [hne]
  · rcases hpd : pd fan.date with _ | d
    · simp [hne, hpd]
    · exact absurd h (by simp [fanValid, hne, hpd])

/-- Accumulating outcomes preserves the "printed = min(errors, 5)"
invariant: only the first five errors are reported verbosely. -/
theorem addOutcomes_printed (outs : List SaveOutcome) :
    ∀ acc : KindStats, acc.printed = min acc.errors 5 →
    (KindStats.addOutcomes acc outs).printed
      = min (KindStats.addOutcomes acc outs).errors 5 := by
  induction outs with
  | nil => intro acc h; exact h
  | cons o outs ih =>
      intro acc h
      have hcons : KindStats.addOutcomes acc (o :: outs)
          = KindStats.addOutcomes (acc.addOutcome o) outs := rfl
      rw [hcons]
      exact ih _ (addOutcome_printed_inv acc o h)

/-- C9: a single malformed record never aborts the batch, in the posts
loop and in the shared follower/following loop alike.  If the post
record `bad` errors at the point it is reached, importing
`pre ++ [bad] ++ suf` produces exactly the store and `created`/`skipped`
counters of importing `pre ++ suf`, with the error counter incremented
by one.  Likewise, if the follower/following entry `badFan` is invalid
(it raises in the loop body), running the loop over
`preF ++ [badFan] ++ sufF` produces exactly the table and
`created`/`skipped` counters of running it over `preF ++ sufF`, with the
error counter incremented by one.  In both loops at most the first 5
errors are reported verbosely (`printed = min(errors, 5)`) while the
remainder are only counted. -/
theorem single_error_isolated (pd : String → Option Int) (st : Store)
    (pre suf : List RawPost) (bad : RawPost)
    (user : String) (rows : List FollowRow)
    (preF sufF : List RawFan) (badFan : RawFan)
    (h : (processPost pd false (importPosts pd false st pre).1 bad).2
      = .errored)
    (hF : fanValid pd badFan = false) :
    (importFollowList pd user false rows (preF ++ badFan :: sufF)).1
      = (importFollowList pd user false rows (preF ++ sufF)).1 ∧
    (importFollowList pd user false rows (preF ++ badFan :: sufF)).2.created
      = (importFollowList pd user false rows (preF ++ sufF)).2.created ∧
    (importFollowList pd user false rows (preF ++ badFan :: sufF)).2.skipped
      = (importFollowList pd user false rows (preF ++ sufF)).2.skipped ∧
    (importFollowList pd user false rows (preF ++ badFan :: sufF)).2.errors
      = (importFollowList pd user false rows (preF ++ sufF)).2.errors + 1 ∧
    (importFollowList pd user false rows (preF ++ badFan :: sufF)).2.printed
      = min (importFollowList pd user false rows
          (preF ++ badFan :: sufF)).2.errors 5 ∧
    (importPosts pd false st (pre ++ bad :: suf)).1
      = (importPosts pd false st (pre ++ suf)).1 ∧
    (importPosts pd false st (pre ++ bad :: suf)).2.created
      = (importPosts pd false st (pre ++ suf)).2.created ∧
    (importPosts pd false st (pre ++ bad :: suf)).2.skipped
      = (importPosts pd false st (pre ++ suf)).2.skipped ∧
    (importPosts pd false st (pre ++ bad :: suf)).2.errors
      = (importPosts pd false st (pre ++ suf)).2.errors + 1 ∧
    (importPosts pd false st (pre ++ bad :: suf)).2.printed
      = min (importPosts pd false st (pre ++ bad :: suf)).2.errors 5 := by
  have hstagedbad := fanStaged_invalid pd user false rows badFan hF
  have houtbad := fanOutcome_invalid pd user false rows badFan hF
  have hfm : (preF ++ badFan :: sufF).filterMap
      (fanStaged pd user false rows)
      = (preF ++ sufF).filterMap (fanStaged pd user false rows) := by
    simp [List.filterMap_append, List.filterMap_cons, hstagedbad]
  have hmapA : (preF ++ badFan :: sufF).map (fanOutcome pd user false rows)
      = preF.map (fanOutcome pd user false rows)
        ++ SaveOutcome.errored :: sufF.map (fanOutcome pd user false rows) := by
    simp [List.map_append, List.map_cons, houtbad]
  have hmapB : (preF ++ sufF).map (fanOutcome pd user false rows)
      = preF.map (fanOutcome pd user false rows)
        ++ sufF.map (fanOutcome pd user false rows) := by
    simp [List.map_append]
  have hfl : (importFollowList pd user false rows
      (preF ++ badFan :: sufF)).1
      = (importFollowList pd user false rows (preF ++ sufF)).1 ∧
      (importFollowList pd user false rows
        (preF ++ badFan :: sufF)).2.created
      = (importFollowList pd user false rows (preF ++ sufF)).2.created ∧
      (importFollowList pd user false rows
        (preF ++ badFan :: sufF)).2.skipped
      = (importFollowList pd user false rows (preF ++ sufF)).2.skipped ∧
      (importFollowList pd user false rows
        (preF ++ badFan :: sufF)).2.errors
      = (importFollowList pd user false rows (preF ++ sufF)).2.errors
          + 1 ∧
      (importFollowList pd user false rows
        (preF ++ badFan :: sufF)).2.printed
      = min (importFollowList pd user false rows
          (preF ++ badFan :: sufF)).2.errors 5 := by
    rw [importFollowList_eq, importFollowList_eq]
    refine ⟨by simp [hfm], ?_, ?_, ?_, ?_⟩
    · simp only [addOutcomes_created, KindStats.zero, hmapA, hmapB,
        List.count_append, List.count_cons]
      simp
    · simp only [addOutcomes_skipped, KindStats.zero, hmapA, hmapB,
        List.count_append, List.count_cons]
      simp
    · simp only [addOutcomes_errors, KindStats.zero, hmapA, hmapB,
        List.count_append, List.count_cons]
      simp
      omega
    · exact addOutcomes_printed _ KindStats.zero (by simp [KindStats.zero])
  have hprinted : (importPosts pd false st (pre ++ bad :: suf)).2.printed
      = min (importPosts pd false st (pre ++ bad :: suf)).2.errors 5 :=
    importPosts_fold_printed pd false (pre ++ bad :: suf) st
      KindStats.zero (by simp [KindStats.zero])
  have hsplit : importPosts pd false st (pre ++ bad :: suf)
      = (bad :: suf).foldl (importPostsStep pd false)
          (pre.foldl (importPostsStep pd false) (st, KindStats.zero)) := by
    simp [importPosts, List.foldl_append]
  have hsplit2 : importPosts pd false st (pre ++ suf)
      = suf.foldl (importPostsStep pd false)
          (pre.foldl (importPostsStep pd false) (st, KindStats.zero)) := by
    simp [importPosts, List.foldl_append]
  set s1 := (pre.foldl (importPostsStep pd false) (st, KindStats.zero)).1
    with hs1
  set a1 := (pre.foldl (importPostsStep pd false) (st, KindStats.zero)).2
    with ha1
  have hpair : pre.foldl (importPostsStep pd false) (st, KindStats.zero)
      = (s1, a1) := rfl
  have hbadstore : (processPost pd false s1 bad).1 = s1 := by
    refine processPost_not_created_store pd false s1 bad ?_
    have : (importPosts pd false st pre).1 = s1 := rfl
    rw [this] at h
    simp [h]
  have hbadout : (processPost pd false s1 bad).2 = .errored := by
    have : (importPosts pd false st pre).1 = s1 := rfl
    rwa [this] at h
  have hstep : (bad :: suf).foldl (importPostsStep pd false) (s1, a1)
      = suf.foldl (importPostsStep pd false)
          (s1, a1.addOutcome .errored) := by
    simp [List.foldl_cons, importPostsStep_eq, hbadstore, hbadout]
  obtain ⟨hsA, hcA, hkA, heA⟩ :=
    importPosts_fold_acc pd false suf s1 (a1.addOutcome .errored)
  obtain ⟨hsB, hcB, hkB, heB⟩ := importPosts_fold_acc pd false suf s1 a1
  refine ⟨hfl.1, hfl.2.1, hfl.2.2.1, hfl.2.2.2.1, hfl.2.2.2.2,
    ?_, ?_, ?_, ?_, ?_⟩
  · rw [hsplit, hsplit2, hpair, hstep]
    exact hsA.trans hsB.symm
  · rw [hsplit, hsplit2, hpair, hstep, hcA, hcB, addOutcome_created]
    simp
  · rw [hsplit, hsplit2, hpair, hstep, hkA, hkB, addOutcome_skipped]
    simp
  · rw [hsplit, hsplit2, hpair, hstep, heA, heB, addOutcome_errors,
      if_pos rfl]
    omega
  · exact hprinted

/-- Witness for C9: a post record with a missing `id` key and a follower
entry with an empty username both error; splicing either into its batch
leaves the rest of the batch's effect unchanged apart from the error
counter. -/
theorem single_error_isolated_witness :
    ((processPost (fun _ => some 1) false
        (importPosts (fun _ => some 1) false ⟨[], [], [], []⟩ []).1
        (.internalFmt ⟨none, none, none, none, none, none⟩)).2
      = .errored) ∧
    fanValid (fun _ => some 1) ⟨"", "x"⟩ = false ∧
    ((importPosts (fun _ => some 1) false ⟨[], [], [], []⟩
        ([] ++ .internalFmt ⟨none, none, none, none, none, none⟩ ::
          [.internalFmt ⟨some "A", some "t", some 1, some "5", some "c",
            some "v"⟩])).1
      = (importPosts (fun _ => some 1) false ⟨[], [], [], []⟩
          ([] ++ [.internalFmt ⟨some "A", some "t", some 1, some "5",
            some "c", some "v"⟩])).1) ∧
    ((importPosts (fun _ => some 1) false ⟨[], [], [], []⟩
        ([] ++ .internalFmt ⟨none, none, none, none, none, none⟩ ::
          [.internalFmt ⟨some "A", some "t", some 1, some "5", some "c",
            some "v"⟩])).2.errors
      = (importPosts (fun _ => some 1) false ⟨[], [], [], []⟩
          ([] ++ [.internalFmt ⟨some "A", some "t", some 1, some "5",
            some "c", some "v"⟩])).2.errors + 1) ∧
    ((importFollowList (fun _ => some 1) "admin" false []
        ([] ++ (⟨"", "x"⟩ : RawFan) :: [⟨"bob", "5"⟩])).1
      = (importFollowList (fun _ => some 1) "admin" false []
          ([] ++ [⟨"bob", "5"⟩])).1) ∧
    ((importFollowList (fun _ => some 1) "admin" false []
        ([] ++ (⟨"", "x"⟩ : RawFan) :: [⟨"bob", "5"⟩])).2.errors
      = (importFollowList (fun _ => some 1) "admin" false []
          ([] ++ [⟨"bob", "5"⟩])).2.errors + 1) := by
  obtain ⟨f1, f2, f3, f4, f5, p1, p2, p3, p4, p5⟩ :=
    single_error_isolated (fun _ => some 1) ⟨[], [], [], []⟩ []
      [.internalFmt ⟨some "A", some "t", some 1, some "5", some "c",
        some "v"⟩]
      (.internalFmt ⟨none, none, none, none, none, none⟩)
      "admin" [] [] [⟨"bob", "5"⟩] ⟨"", "x"⟩ (by decide) (by decide)
  exact ⟨by decide, by decide, p1, p4, f1, f4⟩

/-- A post record touches only the posts table. -/
theorem processPost_frame (pd : String → Option Int) (dry : Bool)
    (st : Store) (r : RawPost) :
    (processPost pd dry st r).1.followers = st.followers ∧
    (processPost pd dry st r).1.following = st.following ∧
    (processPost pd dry st r).1.snapshots = st.snapshots := by
  rcases processPost_store pd dry st r with h | ⟨-, row, h, -⟩ <;> rw [h] <;>
    exact ⟨rfl, rfl, rfl⟩

/-- The posts fold touches only the posts table. -/
theorem importPosts_fold_frame (pd : String → Option Int) (dry : Bool)
    (l : List RawPost) :
    ∀ acc : Store × KindStats,
    (l.foldl (importPostsStep pd dry) acc).1.followers = acc.1.followers ∧
    (l.foldl (importPostsStep pd dry) acc).1.following = acc.1.following ∧
    (l.foldl (importPostsStep pd dry) acc).1.snapshots = acc.1.snapshots := by
  induction l with
  | nil => intro acc; exact ⟨rfl, rfl, rfl⟩
  | cons r l ih =>
      intro acc
      obtain ⟨st, a⟩ := acc
      simp only [List.foldl_cons, importPostsStep_eq]
      obtain ⟨h1, h2, h3⟩ := ih ((processPost pd dry st r).1,
        a.addOutcome (processPost pd dry st r).2)
      obtain ⟨g1, g2, g3⟩ := processPost_frame pd dry st r
      exact ⟨h1.trans g1, h2.trans g2, h3.trans g3⟩

/-- The existence check reads only the posts table. -/
theorem store_postExists_congr (st st' : Store) (h : st.posts = st'.posts)
    (pid : String) : st.postExists pid = st'.postExists pid := by
  simp [Store.postExists, h]

/-- A record classified `created` by a real `_save_post` passed all the
store-independent checks and its id was absent from the store. -/
theorem savePost_created_valid (pd : String → Option Int) (st : Store)
    (p : InternalPost) (h : (savePost pd false st p).2 = .created) :
    postValid pd (.internalFmt p) = true ∧
    ∃ pid, p.id = some pid ∧ st.postExists pid = false := by
  unfold savePost at h
  rcases hid : p.id with _ | pid
  · rw [hid] at h; simp at h
  · rw [hid] at h
    simp only [Bool.false_eq_true, if_false] at h
    by_cases hex : st.postExists pid
    · simp [hex] at h
    · simp only [hex, Bool.false_eq_true, if_false] at h
      rcases hds : p.dateStr with _ | ds
      · simp [hds] at h
      · simp only [hds] at h
        rcases hpd : pd ds with _ | d
        · simp [hpd] at h
        · simp only [hpd] at h
          rcases ht : p.title with _ | t
          · simp [ht] at h
          · rcases hlk : p.likes with _ | lk
            · simp [ht, hlk] at h
            · rcases hcu : p.coverUrl with _ | cu
              · simp [ht, hlk, hcu] at h
              · rcases hvl : p.videoLink with _ | vl
                · simp [ht, hlk, hcu, hvl] at h
                · refine ⟨?_, pid, rfl, by simp [hex]⟩
                  simp [postValid, hid, hds, hpd, ht, hlk, hcu, hvl]

/-- After a real `_save_post` on a record passing the store-independent
checks, the record's id is present in the store (it was either already
there or just created). -/
theorem savePost_valid_covered (pd : String → Option Int) (st : Store)
    (p : InternalPost) (h : postValid pd (.internalFmt p) = true) :
    ∃ pid, p.id = some pid ∧
      (savePost pd false st p).1.postExists pid = true := by
  rcases hid : p.id with _ | pid
  · simp [postValid, hid] at h
  · rcases hds : p.dateStr with _ | ds
    · simp [postValid, hid, hds] at h
    · rcases hpd : pd ds with _ | d
      · simp [postValid, hid, hds, hpd] at h
      · rcases ht : p.title with _ | t
        · simp [postValid, hid, hds, hpd, ht] at h
        · rcases hlk : p.likes with _ | lk
          · simp [postValid, hid, hds, hpd, ht, hlk] at h
          · rcases hcu : p.coverUrl with _ | cu
            · simp [postValid, hid, hds, hpd, ht, hlk, hcu] at h
            · rcases hvl : p.videoLink with _ | vl
              · simp [postValid, hid, hds, hpd, ht, hlk, hcu, hvl] at h
              · refine ⟨pid, rfl, ?_⟩
                unfold savePost
                rw [hid]
                by_cases hex : st.postExists pid
                · simp [hex]
                · simp only [hex, Bool.false_eq_true, if_false, hds, hpd,
                    ht, hlk, hcu, hvl]
                  simp [Store.postExists, List.any_append]

/-- A record classified `created` by a real run passed all the
store-independent checks and its id was absent. -/
theorem processPost_created_valid (pd : String → Option Int) (st : Store)
    (r : RawPost) (h : (processPost pd false st r).2 = .created) :
    postValid pd r = true ∧
    ∃ pid, postIdOf r = some pid ∧ st.postExists pid = false := by
  cases r with
  | internalFmt p =>
      have h' : (savePost pd false st p).2 = .created := h
      obtain ⟨hv, pid, hpid, hex⟩ := savePost_created_valid pd st p h'
      exact ⟨hv, pid, hpid, hex⟩
  | exportFmt e =>
      rcases hlk : e.likes with _ | lk
      · rw [processPost, convertPostFormat, hlk] at h; simp at h
      · rw [processPost, convertPostFormat, hlk] at h
        obtain ⟨hv, pid, hpid, hex⟩ := savePost_created_valid pd st _ h
        simp only [postValid] at hv
        simp only [Option.some.injEq] at hpid
        refine ⟨?_, pid, ?_, hex⟩
        · simp only [postValid, hlk, Option.isSome_some, Bool.true_and]
          simpa using hv
        · rw [postIdOf, hpid]

/-- After a real run processes a record passing the store-independent
checks, the record's id is present in the store. -/
theorem processPost_valid_covered (pd : String → Option Int) (st : Store)
    (r : RawPost) (h : postValid pd r = true) :
    ∃ pid, postIdOf r = some pid ∧
      (processPost pd false st r).1.postExists pid = true := by
  cases r with
  | internalFmt p =>
      obtain ⟨pid, hpid, hex⟩ := savePost_valid_covered pd st p h
      exact ⟨pid, hpid, hex⟩
  | exportFmt e =>
      rcases hlk : e.likes with _ | lk
      · rw [postValid, hlk] at h; simp at h
      · have hv : postValid pd (.internalFmt
            { id := some ((lastSegment e.link).take 19)
              title := some e.title
              likes := some lk
              dateStr := some e.dateStr
              coverUrl := some (e.coverImage.getD e.link)
              videoLink := some e.link }) = true := by
          rw [postValid, hlk] at h
          simp only [postValid]
          simpa using h
        obtain ⟨pid, hpid, hex⟩ := savePost_valid_covered pd st _ hv
        refine ⟨pid, ?_, ?_⟩
        · simp only [Option.some.injEq] at hpid
          rw [postIdOf, hpid]
        · rw [processPost, convertPostFormat, hlk]
          exact hex

/-- The existence of an id survives processing further records. -/
theorem processPost_exists_mono (pd : String → Option Int) (dry : Bool)
    (st : Store) (r : RawPost) (pid : String)
    (h : st.postExists pid = true) :
    (processPost pd dry st r).1.postExists pid = true := by
  rcases processPost_store pd dry st r with h1 | ⟨-, row, h1, -⟩ <;> rw [h1]
  · exact h
  · simp only [Store.postExists] at h ⊢
    simp [List.any_append, h]

/-- The existence of an id survives the whole posts fold. -/
theorem importPosts_fold_exists_mono (pd : String → Option Int)
    (dry : Bool) (l : List RawPost) :
    ∀ (acc : Store × KindStats) (pid : String),
    acc.1.postExists pid = true →
    (l.foldl (importPostsStep pd dry) acc).1.postExists pid = true := by
  induction l with
  | nil => intro acc pid h; exact h
  | cons r l ih =>
      intro acc pid h
      obtain ⟨st, a⟩ := acc
      simp only [List.foldl_cons, importPostsStep_eq]
      exact ih _ pid (processPost_exists_mono pd dry st r pid h)

/-- After a real posts fold, every record of the batch that passes the
store-independent checks has its id present in the final store. -/
theorem importPosts_fold_covers (pd : String → Option Int)
    (l : List RawPost) :
    ∀ (acc : Store × KindStats) (r : RawPost), r ∈ l →
    postValid pd r = true →
    ∃ pid, postIdOf r = some pid ∧
      (l.foldl (importPostsStep pd false) acc).1.postExists pid = true := by
  induction l with
  | nil => intro acc r hr; simp at hr
  | cons r' l ih =>
      intro acc r hr hv
      obtain ⟨st, a⟩ := acc
      rcases List.mem_cons.mp hr with rfl | hmem
      · obtain ⟨pid, hpid, hex⟩ := processPost_valid_covered pd st r hv
        refine ⟨pid, hpid, ?_⟩
        simp only [List.foldl_cons, importPostsStep_eq]
        exact importPosts_fold_exists_mono pd false l _ pid hex
      · simp only [List.foldl_cons]
        exact ih _ r hmem hv

/-- A real posts fold over a batch whose valid records are all already
present creates nothing and leaves the store exactly unchanged. -/
theorem importPosts_fold_no_create (pd : String → Option Int)
    (l : List RawPost) :
    ∀ (st : Store) (a : KindStats),
    (∀ r ∈ l, postValid pd r = true →
      ∃ pid, postIdOf r = some pid ∧ st.postExists pid = true) →
    (l.foldl (importPostsStep pd false) (st, a)).1 = st ∧
    (l.foldl (importPostsStep pd false) (st, a)).2.created = a.created := by
  induction l with
  | nil => intro st a _; exact ⟨rfl, rfl⟩
  | cons r l ih =>
      intro st a hcov
      have hout : ¬ (processPost pd false st r).2 = .created := by
        intro hc
        obtain ⟨hv, pid, hpid, hex⟩ := processPost_created_valid pd st r hc
        obtain ⟨pid', hpid', hex'⟩ := hcov r (List.mem_cons_self r l) hv
        rw [hpid] at hpid'
        injection hpid' with he
        rw [← he] at hex'
        rw [hex'] at hex
        exact absurd hex (by simp)
      have hst := processPost_not_created_store pd false st r hout
      simp only [List.foldl_cons, importPostsStep_eq, hst]
      have hcreated : (a.addOutcome (processPost pd false st r).2).created
          = a.created := by
        rw [addOutcome_created, if_neg hout]
        omega
      obtain ⟨h1, h2⟩ := ih st (a.addOutcome (processPost pd false st r).2)
        (fun r' hr' hv' => hcov r' (List.mem_cons_of_mem r hr') hv')
      exact ⟨h1, by rw [h2, hcreated]⟩

/-- Unfolding one step of the conflict-ignoring bulk insert. -/
theorem bulkInsertFollow_cons (rows : List FollowRow) (row : FollowRow)
    (tc : List FollowRow) :
    bulkInsertFollow rows (row :: tc)
      = bulkInsertFollow
          (if followKeyExists rows row.user row.username then rows
           else rows ++ [row]) tc := rfl

/-- The existence check distributes over table append. -/
theorem followKeyExists_append (rows rows' : List FollowRow)
    (u un : String) :
    followKeyExists (rows ++ rows') u un
      = (followKeyExists rows u un || followKeyExists rows' u un) := by
  simp [followKeyExists, List.any_append]

/-- A key present before a bulk insert is present afterwards. -/
theorem bulkInsert_exists_mono (tc : List FollowRow) :
    ∀ (rows : List FollowRow) (u un : String),
    followKeyExists rows u un = true →
    followKeyExists (bulkInsertFollow rows tc) u un = true := by
  induction tc with
  | nil => intro rows u un h; exact h
  | cons row tc ih =>
      intro rows u un h
      rw [bulkInsertFollow_cons]
      apply ih
      by_cases hc : followKeyExists rows row.user row.username
      · simp [hc, h]
      · simp [hc, followKeyExists_append, h]

/-- Every staged row's key is present after the bulk insert, whether the
row was inserted or dropped as a conflict. -/
theorem bulkInsert_covers (tc : List FollowRow) :
    ∀ (rows : List FollowRow) (row : FollowRow), row ∈ tc →
    followKeyExists (bulkInsertFollow rows tc) row.user row.username
      = true := by
  induction tc with
  | nil => intro rows row h; simp at h
  | cons r tc ih =>
      intro rows row hmem
      rw [bulkInsertFollow_cons]
      rcases List.mem_cons.mp hmem with rfl | hmem'
      · apply bulkInsert_exists_mono
        by_cases hc : followKeyExists rows row.user row.username
        · simpa [hc] using hc
        · rw [if_neg hc, followKeyExists_append]
          simp [followKeyExists]
      · exact ih _ row hmem'

/-- After a real follower import, every valid entry's key is present in
the resulting table. -/
theorem importFollowList_covers (pd : String → Option Int) (user : String)
    (rows : List FollowRow) (fans : List RawFan) (fan : RawFan)
    (hmem : fan ∈ fans) (hv : fanValid pd fan = true) :
    followKeyExists (importFollowList pd user false rows fans).1 user
      (pyStrip fan.userName) = true := by
  rw [importFollowList_eq]
  simp only [Bool.false_eq_true, if_false]
  by_cases hex : followKeyExists rows user (pyStrip fan.userName)
  · exact bulkInsert_exists_mono _ _ _ _ hex
  · have hne : ¬ pyStrip fan.userName = "" := by
      intro hc
      simp [fanValid, hc] at hv
    obtain ⟨d, hpd⟩ : ∃ d, pd fan.date = some d := by
      rcases hd : pd fan.date with _ | d
      · simp [fanValid, hd] at hv
      · exact ⟨d, rfl⟩
    have hstaged : fanStaged pd user false rows fan
        = some ⟨user, pyStrip fan.userName, d⟩ := by
      unfold fanStaged
      simp [hne, hpd, hex]
    have hrowmem : (⟨user, pyStrip fan.userName, d⟩ : FollowRow)
        ∈ fans.filterMap (fanStaged pd user false rows) :=
      List.mem_filterMap.mpr ⟨fan, hmem, hstaged⟩
    exact bulkInsert_covers _ rows _ hrowmem

/-- A real follower import over entries whose valid keys are all already
present stages nothing, leaves the table exactly unchanged and creates
nothing. -/
theorem importFollowList_idem (pd : String → Option Int) (user : String)
    (rows : List FollowRow) (fans : List RawFan)
    (hcov : ∀ fan ∈ fans, fanValid pd fan = true →
      followKeyExists rows user (pyStrip fan.userName) = true) :
    (importFollowList pd user false rows fans).1 = rows ∧
    (importFollowList pd user false rows fans).2.created = 0 := by
  rw [importFollowList_eq]
  have hstaged : fans.filterMap (fanStaged pd user false rows) = [] := by
    rw [List.filterMap_eq_nil_iff]
    intro fan hmem
    by_cases hne : pyStrip fan.userName = ""
    · unfold fanStaged; simp [hne]
    · rcases hpd : pd fan.date with _ | d
      · unfold fanStaged; simp [hne, hpd]
      · have hv : fanValid pd fan = true := by simp [fanValid, hne, hpd]
        have hex := hcov fan hmem hv
        unfold fanStaged; simp [hne, hpd, hex]
  refine ⟨by simp [hstaged, bulkInsertFollow], ?_⟩
  have hzero : (fans.map (fanOutcome pd user false rows)).count
      .created = 0 := by
    rw [List.count_eq_zero]
    intro hmemc
    obtain ⟨fan, hmem, hfo⟩ := List.mem_map.mp hmemc
    rw [fanOutcome_real] at hfo
    by_cases hv : fanValid pd fan = true
    · rw [if_pos hv, if_pos (hcov fan hmem hv)] at hfo
      exact absurd hfo (by simp)
    · rw [if_neg hv] at hfo
      exact absurd hfo (by simp)
  simp [addOutcomes_created, hzero, KindStats.zero]

/-- `_import_followers` rewrites only the followers table. -/
theorem importFollowers_frame (pd : String → Option Int) (user : String)
    (dry : Bool) (st : Store) (data : ExportData) :
    (importFollowers pd user dry st data).1.posts = st.posts ∧
    (importFollowers pd user dry st data).1.following = st.following ∧
    (importFollowers pd user dry st data).1.snapshots = st.snapshots ∧
    (importFollowers pd user dry st data).1.followers
      = (importFollowList pd user dry st.followers (fansOf data)).1 ∧
    (importFollowers pd user dry st data).2
      = (importFollowList pd user dry st.followers (fansOf data)).2 :=
  ⟨rfl, rfl, rfl, rfl, rfl⟩

/-- `_import_following` rewrites only the following table. -/
theorem importFollowing_frame (pd : String → Option Int) (user : String)
    (dry : Bool) (st : Store) (data : ExportData) :
    (importFollowing pd user dry st data).1.posts = st.posts ∧
    (importFollowing pd user dry st data).1.followers = st.followers ∧
    (importFollowing pd user dry st data).1.snapshots = st.snapshots ∧
    (importFollowing pd user dry st data).1.following
      = (importFollowList pd user dry st.following (followingOf data)).1 ∧
    (importFollowing pd user dry st data).2
      = (importFollowList pd user dry st.following (followingOf data)).2 :=
  ⟨rfl, rfl, rfl, rfl, rfl⟩

/-- `_create_snapshot` touches only the snapshots table. -/
theorem createSnapshot_frame (user : String) (data : ExportData)
    (now : Int) (st : Store) :
    (createSnapshot user data now st).posts = st.posts ∧
    (createSnapshot user data now st).followers = st.followers ∧
    (createSnapshot user data now st).following = st.following := by
  unfold createSnapshot
  split <;>
    · refine ⟨?_, ?_, ?_⟩ <;>
        · dsimp only
          split <;> rfl

/-- A real run of the full command (default flags: no dry-run, no clear,
both kinds imported) decomposed into its four phases. -/
theorem handle_real_eq (pd : String → Option Int) (data : ExportData)
    (user : String) (now : Int) (st : Store) :
    handle pd data user false false false false now st
      = (createSnapshot user data now
          (importFollowing pd user false
            (importFollowers pd user false
              (importPosts pd false st (postsOf data)).1 data).1 data).1,
         ⟨(importPosts pd false st (postsOf data)).2,
          (importFollowers pd user false
            (importPosts pd false st (postsOf data)).1 data).2,
          (importFollowing pd user false
            (importFollowers pd user false
              (importPosts pd false st (postsOf data)).1 data).1 data).2⟩) := by
  simp [handle, handleBody]

/-- C6 amended: re-importing the same payload under the skip policy is
idempotent for the Post, Follower and Following kinds — the second run
leaves those three tables exactly as after the first run and reports
`created = 0` for every kind.  (The FollowerSnapshot kind is excluded:
the snapshot branch may append one more row per run.) -/
theorem skip_reimport_idempotent (pd : String → Option Int)
    (data : ExportData) (user : String) (now1 now2 : Int) (st : Store) :
    (handle pd data user false false false false now2
        (handle pd data user false false false false now1 st).1).1.posts
      = (handle pd data user false false false false now1 st).1.posts ∧
    (handle pd data user false false false false now2
        (handle pd data user false false false false now1 st).1).1.followers
      = (handle pd data user false false false false now1 st).1.followers ∧
    (handle pd data user false false false false now2
        (handle pd data user false false false false now1 st).1).1.following
      = (handle pd data user false false false false now1 st).1.following ∧
    (handle pd data user false false false false now2
        (handle pd data user false false false false now1 st).1).2.posts.created
      = 0 ∧
    (handle pd data user false false false false now2
        (handle pd data user false false false false now1 st).1).2.followers.created
      = 0 ∧
    (handle pd data user false false false false now2
        (handle pd data user false false false false now1 st).1).2.following.created
      = 0 := by
  have hrun1 := handle_real_eq pd data user now1 st
  set s1 : Store := (importPosts pd false st (postsOf data)).1 with hs1
  set s2 : Store := (importFollowers pd user false s1 data).1 with hs2
  set s3 : Store := (importFollowing pd user false s2 data).1 with hs3
  set s4 : Store := createSnapshot user data now1 s3 with hs4
  have hr1 : (handle pd data user false false false false now1 st).1
      = s4 := by rw [hrun1]
  have hposts41 : s4.posts = s1.posts := by
    rw [hs4]
    rw [(createSnapshot_frame user data now1 s3).1, hs3]
    rw [(importFollowing_frame pd user false s2 data).1, hs2]
    exact (importFollowers_frame pd user false s1 data).1
  have hfoll4 : s4.followers
      = (importFollowList pd user false s1.followers (fansOf data)).1 := by
    rw [hs4]
    rw [(createSnapshot_frame user data now1 s3).2.1, hs3]
    rw [(importFollowing_frame pd user false s2 data).2.1, hs2]
    exact (importFollowers_frame pd user false s1 data).2.2.2.1
  have hfollowing4 : s4.following
      = (importFollowList pd user false s2.following
          (followingOf data)).1 := by
    rw [hs4]
    rw [(createSnapshot_frame user data now1 s3).2.2, hs3]
    exact (importFollowing_frame pd user false s2 data).2.2.2.1
  -- run-2 posts phase: nothing is created, store unchanged
  have hcov1 : ∀ r ∈ postsOf data, postValid pd r = true →
      ∃ pid, postIdOf r = some pid ∧ s1.postExists pid = true := by
    intro r hr hv
    exact importPosts_fold_covers pd (postsOf data)
      (st, KindStats.zero) r hr hv
  have hcov4 : ∀ r ∈ postsOf data, postValid pd r = true →
      ∃ pid, postIdOf r = some pid ∧ s4.postExists pid = true := by
    intro r hr hv
    obtain ⟨pid, h1, h2⟩ := hcov1 r hr hv
    exact ⟨pid, h1, by rw [store_postExists_congr s4 s1 hposts41 pid]
                       exact h2⟩
  have hp2 : (importPosts pd false s4 (postsOf data)).1 = s4 ∧
      (importPosts pd false s4 (postsOf data)).2.created = 0 := by
    have h := importPosts_fold_no_create pd (postsOf data) s4
      KindStats.zero hcov4
    exact ⟨h.1, h.2⟩
  -- run-2 followers phase
  have hcovF : ∀ fan ∈ fansOf data, fanValid pd fan = true →
      followKeyExists s4.followers user (pyStrip fan.userName) = true := by
    intro fan hm hv
    rw [hfoll4]
    exact importFollowList_covers pd user s1.followers (fansOf data)
      fan hm hv
  have hf2 := importFollowList_idem pd user s4.followers (fansOf data)
    hcovF
  have hf2store : (importFollowers pd user false s4 data).1 = s4 := by
    have heq : (importFollowers pd user false s4 data).1
        = { s4 with followers :=
            (importFollowList pd user false s4.followers
              (fansOf data)).1 } := rfl
    rw [heq, hf2.1]
  -- run-2 following phase
  have hcovG : ∀ fan ∈ followingOf data, fanValid pd fan = true →
      followKeyExists s4.following user (pyStrip fan.userName) = true := by
    intro fan hm hv
    rw [hfollowing4]
    exact importFollowList_covers pd user s2.following (followingOf data)
      fan hm hv
  have hg2 := importFollowList_idem pd user s4.following
    (followingOf data) hcovG
  have hg2store : (importFollowing pd user false s4 data).1 = s4 := by
    have heq : (importFollowing pd user false s4 data).1
        = { s4 with following :=
            (importFollowList pd user false s4.following
              (followingOf data)).1 } := rfl
    rw [heq, hg2.1]
  -- assemble
  rw [hr1, handle_real_eq pd data user now2 s4, hp2.1, hf2store, hg2store]
  refine ⟨(createSnapshot_frame user data now2 s4).1,
    (createSnapshot_frame user data now2 s4).2.1,
    (createSnapshot_frame user data now2 s4).2.2,
    hp2.2, ?_, ?_⟩
  · rw [(importFollowers_frame pd user false s4 data).2.2.2.2]
    exact hf2.2
  · rw [(importFollowing_frame pd user false s4 data).2.2.2.2]
    exact hg2.2

/-- C6 counterexample: the FollowerSnapshot row count is NOT preserved by
a second identical run.  With a legacy flat-list payload and one
pre-existing follower row, each run's snapshot branch reads the database
counts and appends a fresh snapshot: one row after the first run, two
after the second. -/
theorem skip_reimport_snapshot_counterexample :
    (handle (fun _ => none) (ExportData.flat []) "admin"
        false false false false 1
        ⟨[], [⟨"admin", "a", 0⟩], [], []⟩).1.snapshots.length = 1 ∧
    (handle (fun _ => none) (ExportData.flat []) "admin"
        false false false false 2
        (handle (fun _ => none) (ExportData.flat []) "admin"
          false false false false 1
          ⟨[], [⟨"admin", "a", 0⟩], [], []⟩).1).1.snapshots.length = 2 ∧
    (2 : Nat) ≠ 1 := by decide

/-- C8: every entry of the engagement-ratio analysis — including posts
dated today and posts dated in the future — has
`days_since_post = max((now - date).days, 1)`, hence at least 1, so the
`engagement_per_day` and `likes_per_day` divisions have a positive
denominator and never divide by zero or by a negative number. -/
theorem engagement_days_floor_at_one (now : Int) (limit : Nat)
    (posts : List EngPost) (e : EngEntry)
    (h : e ∈ engagementRatioAnalysis now limit posts) :
    e.days = max ((now - e.date).fdiv 86400) 1 ∧ 1 ≤ e.days ∧
    ¬ (e.days : ℚ) = 0 ∧
    e.engagementPerDay = (e.totalEngagement : ℚ) / (e.days : ℚ) ∧
    e.likesPerDay = (e.likes : ℚ) / (e.days : ℚ) := by
  simp only [engagementRatioAnalysis] at h
  have h1 := List.mem_of_mem_take h
  have h2 := ((List.perm_insertionSort _ _).mem_iff).mp h1
  obtain ⟨p, -, rfl⟩ := List.mem_map.mp h2
  refine ⟨rfl, le_max_right _ 1, ?_, rfl, rfl⟩
  have h3 : (1 : Int) ≤ daysSincePost now p.date := le_max_right _ 1
  exact fun hc => by
    have : (daysSincePost now p.date : ℚ) = 0 := hc
    have : daysSincePost now p.date = 0 := by exact_mod_cast this
    omega

/-- Witness for C8 at a future-dated post (`date` one day after `now`):
`days_since_post` floors to 1. -/
theorem engagement_days_floor_at_one_witness :
    (mkEngEntry 0 ⟨86400, 7, none, none⟩).days
        = max (((0 : Int) - (mkEngEntry 0 ⟨86400, 7, none, none⟩).date).fdiv
            86400) 1 ∧
    1 ≤ (mkEngEntry 0 ⟨86400, 7, none, none⟩).days ∧
    ¬ ((mkEngEntry 0 ⟨86400, 7, none, none⟩).days : ℚ) = 0 ∧
    (mkEngEntry 0 ⟨86400, 7, none, none⟩).engagementPerDay
      = ((mkEngEntry 0 ⟨86400, 7, none, none⟩).totalEngagement : ℚ)
          / ((mkEngEntry 0 ⟨86400, 7, none, none⟩).days : ℚ) ∧
    (mkEngEntry 0 ⟨86400, 7, none, none⟩).likesPerDay
      = ((mkEngEntry 0 ⟨86400, 7, none, none⟩).likes : ℚ)
          / ((mkEngEntry 0 ⟨86400, 7, none, none⟩).days : ℚ) :=
  engagement_days_floor_at_one 0 1 [⟨86400, 7, none, none⟩] _
    (List.Mem.head _)

end TikTok
